import Mathlib

/-!
# Verification of the `liq-sim` bar-driven execution simulator

Shallow embedding of the core of `src/liq/sim` (execution matching, FIFO
position accounting, settlement, financing swaps, constraint checks, bracket
orders, checkpoint loading, and the simulator event loop), together with
theorems settling the frozen claims about it.

Modelling conventions, used throughout:

* Python `decimal.Decimal` values (prices, quantities, cash, rates) are exact;
  they are modelled as rationals (`ℚ`).  The source forbids floats on the
  money path; the few float-typed configuration percentages that the source
  converts via `Decimal(str(x))` are modelled directly as rationals.
* Timezone-aware `datetime` values are modelled by `Timestamp`: a rational
  instant `time` measured in days (ordering and `timedelta(days=n)` arithmetic
  act on it, and `datetime.date()` is its floor), plus the data the financing
  module observes about the same instant after conversion to the
  America/New_York timezone (`ny_time_of_day`, in minutes) and the weekday.
  The timezone database itself is outside the embedding, so these projections
  are carried as fields of the instant.
* Python truthiness on `Optional[Decimal]` (`x or y`, `if x:`) is modelled
  explicitly: `None` and `Decimal("0")` are falsy (`py_or`, `py_truthy`).
* Fallible code returns `Except`: `PyErr` collects the exceptions that can
  escape the embedded code paths (`LookAheadBiasError`, and the `TypeError`
  Python raises when it compares a number with `None`).
* `Fill.fill_id` (a fresh `uuid4`, never inspected by the simulator) and
  `Fill.is partial` (constantly `False` in `match_order`) are omitted from
  the `Fill` record.  Freshly generated `client_order_id`s for bracket legs
  (produced by the external `liq.core` order model) are modelled by a natural
  counter threaded through the simulator loop.
-/

namespace LiqSim

/-- A timezone-aware instant.  `time` is the instant in days (UTC); `date` is
`⌊time⌋`, matching `datetime.date()` on the stored value.  `ny_time_of_day`
(minutes) and `weekday` (0 = Monday … 6 = Sunday) are the projections of the
same instant that `financing.py` observes after `astimezone(America/New_York)`
resp. `weekday()`; the timezone conversion itself is external, so they are
carried as data. -/
structure Timestamp where
  time : ℚ
  ny_time_of_day : ℚ
  weekday : ℕ
  deriving DecidableEq, Repr

namespace Timestamp

/-- `datetime.date()`: the calendar date of the stored instant, as an
integer day number. -/
def date (t : Timestamp) : ℤ := ⌊t.time⌋

/-- `t + timedelta(days=d)`.  Adding a whole number of days moves the instant
by `d`; the New-York projections of settlement release times are never
consulted by the source, so they are kept unchanged. -/
def addDays (t : Timestamp) (d : ℕ) : Timestamp :=
  { t with time := t.time + d }

/-- `datetime` comparison compares instants. -/
def le (a b : Timestamp) : Prop := a.time ≤ b.time

/-- `datetime` strict comparison. -/
def lt (a b : Timestamp) : Prop := a.time < b.time

instance : LE Timestamp := ⟨Timestamp.le⟩
instance : LT Timestamp := ⟨Timestamp.lt⟩

instance : DecidableRel (· ≤ · : Timestamp → Timestamp → Prop) :=
  fun a b => inferInstanceAs (Decidable (a.time ≤ b.time))

instance : DecidableRel (· < · : Timestamp → Timestamp → Prop) :=
  fun a b => inferInstanceAs (Decidable (a.time < b.time))

end Timestamp

/-- Python `a or b` for `a : Optional[Decimal]`: `None` and `0` are falsy. -/
def py_or (a : Option ℚ) (b : ℚ) : ℚ :=
  match a with
  | none => b
  | some x => if x = 0 then b else x

/-- Python `if a:` for `a : Optional[Decimal]`. -/
def py_truthy (a : Option ℚ) : Bool :=
  match a with
  | none => false
  | some x => decide (x ≠ 0)

/-- Exceptions that can escape the embedded code paths. -/
inductive PyErr where
  /-- `liq.sim.exceptions.LookAheadBiasError`, raised by `assert_no_lookahead`. -/
  | lookAheadBias
  /-- Python `TypeError` from comparing a number against `None`. -/
  | typeError
  deriving DecidableEq, Repr

/-- `liq.core.OrderSide`. -/
inductive OrderSide where
  | buy
  | sell
  deriving DecidableEq, Repr

/-- `liq.core.OrderType`. -/
inductive OrderType where
  | market
  | limit
  | stop
  | stopLimit
  deriving DecidableEq, Repr

/-- `liq.core` time-in-force. -/
inductive TimeInForce where
  | day
  | gtc
  | ioc
  | fok
  deriving DecidableEq, Repr

/-- The order-metadata keys the simulator consults.  Modelled from the spec:
`metadata` is an opaque key→value map on the external `liq.core.OrderRequest`;
the source reads exactly `stop_loss_price`, `take_profit_price`,
`locate_available` and `locate_borrowed`. -/
structure OrderMetadata where
  stop_loss_price : Option ℚ
  take_profit_price : Option ℚ
  locate_available : Bool
  locate_borrowed : Bool
  deriving DecidableEq, Repr

/-- The all-`None`/`False` metadata (Python default `{}`). -/
def OrderMetadata.empty : OrderMetadata :=
  { stop_loss_price := none, take_profit_price := none
    locate_available := false, locate_borrowed := false }

/-- `liq.core.OrderRequest` (external immutable value record; fields per the
spec's data model, §3).  `client_order_id` is modelled as a natural number. -/
structure OrderRequest where
  client_order_id : ℕ
  symbol : String
  side : OrderSide
  order_type : OrderType
  quantity : ℚ
  limit_price : Option ℚ := none
  stop_price : Option ℚ := none
  time_in_force : TimeInForce := .gtc
  timestamp : Timestamp
  metadata : OrderMetadata := OrderMetadata.empty
  deriving DecidableEq, Repr

/-- `liq.core.Bar` (external immutable value record).  `open` is a Lean
keyword, hence `open_`. -/
structure Bar where
  symbol : String
  timestamp : Timestamp
  open_ : ℚ
  high : ℚ
  low : ℚ
  close : ℚ
  volume : ℚ
  deriving DecidableEq, Repr

/-- Derived `Bar.midrange = (high + low) / 2`. -/
def Bar.midrange (b : Bar) : ℚ := (b.high + b.low) / 2

/-- `liq.core.Fill` (external immutable value record).  `fill_id` (a fresh
`uuid4`) and the constantly-`False` partial-fill flag are omitted; see the
module docstring. -/
structure Fill where
  client_order_id : ℕ
  symbol : String
  side : OrderSide
  quantity : ℚ
  price : ℚ
  commission : ℚ
  slippage : ℚ
  realized_pnl : Option ℚ
  timestamp : Timestamp
  provider : String
  deriving DecidableEq, Repr

/-! ## `liq/sim/execution.py` — order matching against OHLC bars -/

/-- The `_fill` helper of `match_order`: build a `Fill` for `order` at
`price`.  (`slippage if slippage is not None else 0` is the identity here
because the embedded `slippage` argument is a plain rational.) -/
def mk_fill (order : OrderRequest) (price slippage commission : ℚ)
    (provider : String) (ts : Timestamp) : Fill :=
  { client_order_id := order.client_order_id
    symbol := order.symbol
    side := order.side
    quantity := order.quantity
    price := price
    commission := commission
    slippage := slippage
    realized_pnl := none
    timestamp := ts
    provider := provider }

/-- The body of `match_order` after STOP_LIMIT conversion: match with the
effective order type and effective limit price.  The `.error .typeError`
branches model Python's `min(bar.open, limit_price)` / `max(bar.open,
limit_price)` with `limit_price = None` (reachable only when `bar.open`
is negative resp. positive, since the guard compared against
`limit_price or 0`). -/
def match_effective (order : OrderRequest) (bar : Bar)
    (slippage commission : ℚ) (provider : String) (ts : Timestamp)
    (effective_type : OrderType) (limit_price : Option ℚ) :
    Except PyErr (Option Fill) :=
  match effective_type with
  | .market =>
    match order.side with
    | .buy => .ok (some (mk_fill order (bar.open_ + slippage) slippage commission provider ts))
    | .sell => .ok (some (mk_fill order (bar.open_ - slippage) slippage commission provider ts))
  | .limit =>
    match order.side with
    | .buy =>
      if bar.low ≤ py_or limit_price 0 then
        if bar.open_ < py_or limit_price 0 then
          match limit_price with
          | none => .error .typeError
          | some lp =>
            .ok (some (mk_fill order (min bar.open_ lp) slippage commission provider ts))
        else
          .ok (some (mk_fill order (py_or limit_price bar.open_) slippage commission provider ts))
      else
        .ok none
    | .sell =>
      if py_or limit_price 0 ≤ bar.high then
        if py_or limit_price 0 < bar.open_ then
          match limit_price with
          | none => .error .typeError
          | some lp =>
            .ok (some (mk_fill order (max bar.open_ lp) slippage commission provider ts))
        else
          .ok (some (mk_fill order (py_or limit_price bar.open_) slippage commission provider ts))
      else
        .ok none
  | .stop =>
    match order.side with
    | .buy =>
      if py_or order.stop_price 0 ≤ bar.high then
        .ok (some (mk_fill order (max (py_or order.stop_price 0) bar.open_ + slippage)
          slippage commission provider ts))
      else
        .ok none
    | .sell =>
      if bar.low ≤ py_or order.stop_price 0 then
        .ok (some (mk_fill order (min (py_or order.stop_price 0) bar.open_ - slippage)
          slippage commission provider ts))
      else
        .ok none
  | .stopLimit => .ok none

/-- `execution.match_order`: match a single order against a bar and return a
`Fill`, or `none` if unfilled. -/
def match_order (order : OrderRequest) (bar : Bar)
    (slippage : ℚ := 0) (commission : ℚ := 0) (provider : String := "mock")
    (timestamp : Option Timestamp := none) :
    Except PyErr (Option Fill) :=
  let ts := timestamp.getD bar.timestamp
  match order.order_type with
  | .stopLimit =>
    match order.side with
    | .buy =>
      if py_or order.stop_price 0 ≤ bar.high then
        match_effective order bar slippage commission provider ts .limit order.limit_price
      else
        .ok none
    | .sell =>
      if bar.low ≤ py_or order.stop_price 0 then
        match_effective order bar slippage commission provider ts .limit order.limit_price
      else
        .ok none
  | t => match_effective order bar slippage commission provider ts t order.limit_price

/-! ## `liq/sim/validation.py` — look-ahead gate -/

/-- `validation.assert_no_lookahead`: raise `LookAheadBiasError` when an
order timestamp implies using future information. -/
def assert_no_lookahead (order_timestamp current_bar_timestamp : Timestamp) :
    Except PyErr Unit :=
  if current_bar_timestamp < order_timestamp then .error .lookAheadBias else .ok ()

/-! ## `liq/sim/fx.py` — FX conversion helpers -/

/-- Python `dict.get` on a string-keyed rate table (keys are unique, so the
first association wins). -/
def dict_get (d : List (String × ℚ)) (k : String) : Option ℚ :=
  (d.find? (fun p => p.1 == k)).map (·.2)

/-- Python `if d:` for `d : Optional[dict]`: `None` and `{}` are falsy. -/
def py_dict_truthy {α : Type} (d : Option (List α)) : Bool :=
  match d with
  | none => false
  | some l => !l.isEmpty

/-- `fx.convert_to_usd`: convert P&L from quote currency to USD using the
supplied rates; the `.error` case is the `KeyError` raised on a missing
rate. -/
def convert_to_usd (pnl : ℚ) (pair : String) (rates : List (String × ℚ)) :
    Except Unit ℚ :=
  let norm_pair := pair.replace "-" "_"
  if !norm_pair.contains '_' then .ok pnl
  else
    let pair := norm_pair
    if pair.endsWith "USD" then .ok pnl
    else if pair.startsWith "USD_" then
      match dict_get rates pair with
      | none => .error ()
      | some rate => .ok (pnl / rate)
    else
      let quote :=
        if pair.contains '_' then (pair.splitOn "_").getD 1 ""
        else (pair.splitOn "-").getD 1 ""
      let usd_pair := "USD_" ++ quote
      match dict_get rates usd_pair with
      | none => .error ()
      | some rate => .ok (pnl / rate)

/-- The recurring idiom
`if fx_rates and self.account_currency == "USD" and "_" in pair: try:
convert_to_usd(...) except KeyError: x` from `accounting.py`. -/
def convert_or (x : ℚ) (pair : String) (fx_rates : Option (List (String × ℚ)))
    (account_currency : String) : ℚ :=
  if py_dict_truthy fx_rates && (account_currency == "USD") && pair.contains '_' then
    match fx_rates with
    | some rates =>
      match convert_to_usd x pair rates with
      | .ok v => v
      | .error _ => x
    | none => x
  else x

/-! ## `liq/sim/financing.py` — swap and borrow helpers -/

/-- `financing.daily_swap`: daily financing given notional and annual rate. -/
def daily_swap (notional annual_rate : ℚ) : ℚ :=
  notional * annual_rate / 365

/-- `financing.borrow_cost`: daily borrow cost for shorts. -/
def borrow_cost (notional annual_borrow_rate : ℚ) : ℚ :=
  daily_swap notional annual_borrow_rate

/-- `financing.swap_applicable`: true when the instant, viewed at New York
local time, is at or past the 17:00 roll.  The `astimezone` conversion is
carried by the `ny_time_of_day` field of `Timestamp` (minutes). -/
def swap_applicable (timestamp : Timestamp) : Bool :=
  decide (17 * 60 ≤ timestamp.ny_time_of_day)

/-- `financing.swap_multiplier_for_weekday`: triple swap on Wednesday. -/
def swap_multiplier_for_weekday (timestamp : Timestamp) : ℕ :=
  if timestamp.weekday = 2 then 3 else 1

/-! ## `liq/sim/accounting.py` — FIFO positions, settlement, snapshots -/

/-- `accounting.PositionLot`: a single lot (signed quantity) with entry price
and time. -/
structure PositionLot where
  quantity : ℚ
  entry_price : ℚ
  entry_time : Timestamp
  deriving DecidableEq, Repr

/-- `accounting.SettlementEntry`: proceeds awaiting settlement. -/
structure SettlementEntry where
  amount : ℚ
  release_time : Timestamp
  deriving DecidableEq, Repr

/-- `accounting.PositionRecord`: lots plus cumulative realized P&L. -/
structure PositionRecord where
  lots : List PositionLot := []
  realized_pnl : ℚ := 0
  deriving DecidableEq, Repr

/-- `PositionRecord.net_quantity = Σ lot.quantity`. -/
def PositionRecord.net_quantity (rec : PositionRecord) : ℚ :=
  (rec.lots.map (·.quantity)).sum

/-- `PositionRecord.avg_entry_price`: quantity-weighted entry price, `0` when
flat. -/
def PositionRecord.avg_entry_price (rec : PositionRecord) : ℚ :=
  if rec.net_quantity = 0 then 0
  else (rec.lots.map (fun l => l.entry_price * l.quantity)).sum / rec.net_quantity

/-- `PositionRecord._consume_lots`: consume lots FIFO; returns
`(remaining_quantity, realized_pnl_delta, lots afterwards)`.  The Python
`while` loop walks an index, popping fully consumed lots in place and
stepping over same-signed (or already-empty) lots; the recursion mirrors it
lot by lot. -/
def consume_lots (quantity fill_price : ℚ) (is_closing_long : Bool) :
    List PositionLot → ℚ × ℚ × List PositionLot
  | [] => (quantity, 0, [])
  | lot :: rest =>
    if quantity ≤ 0 then (quantity, 0, lot :: rest)
    else if (is_closing_long = true ∧ lot.quantity ≤ 0)
        ∨ (is_closing_long = false ∧ 0 ≤ lot.quantity) then
      -- not an opposing lot: `idx += 1; continue`
      let r := consume_lots quantity fill_price is_closing_long rest
      (r.1, r.2.1, lot :: r.2.2)
    else
      let close_qty := min quantity |lot.quantity|
      let pnl :=
        if is_closing_long = true then (fill_price - lot.entry_price) * close_qty
        else (lot.entry_price - fill_price) * close_qty
      let new_qty :=
        if is_closing_long = true then lot.quantity - close_qty
        else lot.quantity + close_qty
      let r := consume_lots (quantity - close_qty) fill_price is_closing_long rest
      if new_qty = 0 then (r.1, pnl + r.2.1, r.2.2)
      else (r.1, pnl + r.2.1, { lot with quantity := new_qty } :: r.2.2)

/-- `PositionRecord.apply_fill`: apply a fill to the lots; returns the
realized P&L from this fill together with the updated record (the Python
method mutates the record in place and returns the realized P&L). -/
def PositionRecord.apply_fill (rec : PositionRecord) (fill : Fill) :
    ℚ × PositionRecord :=
  match fill.side with
  | .sell =>
    let r := consume_lots fill.quantity fill.price true rec.lots
    let lots' :=
      if 0 < r.1 then
        r.2.2 ++ [{ quantity := -r.1, entry_price := fill.price, entry_time := fill.timestamp }]
      else r.2.2
    (r.2.1, { lots := lots', realized_pnl := rec.realized_pnl + r.2.1 })
  | .buy =>
    let r := consume_lots fill.quantity fill.price false rec.lots
    let lots' :=
      if 0 < r.1 then
        r.2.2 ++ [{ quantity := r.1, entry_price := fill.price, entry_time := fill.timestamp }]
      else r.2.2
    (r.2.1, { lots := lots', realized_pnl := rec.realized_pnl + r.2.1 })

/-- `accounting.AccountState`: mutable account state for the simulation.
`positions` is the insertion-ordered `dict[str, PositionRecord]`. -/
structure AccountState where
  cash : ℚ
  unsettled_cash : ℚ := 0
  positions : List (String × PositionRecord) := []
  settlement_queue : List SettlementEntry := []
  day_trades_remaining : Option ℤ := none
  account_currency : String := "USD"
  last_swap_time : Option Timestamp := none
  deriving DecidableEq, Repr

/-- Lookup in the insertion-ordered positions dict. -/
def get_position (ps : List (String × PositionRecord)) (sym : String) :
    Option PositionRecord :=
  (ps.find? (fun p => p.1 == sym)).map (·.2)

/-- Write-back of a (possibly fresh) record into the positions dict:
`setdefault` inserts at the end, updates replace in place. -/
def set_position : List (String × PositionRecord) → String → PositionRecord →
    List (String × PositionRecord)
  | [], sym, rec => [(sym, rec)]
  | (s, r) :: rest, sym, rec =>
    if s == sym then (s, rec) :: rest else (s, r) :: set_position rest sym rec

/-- `AccountState.apply_fill`: apply a fill; returns the realized P&L for
this fill together with the updated account. -/
def AccountState.apply_fill (st : AccountState) (fill : Fill)
    (settlement_days : ℕ := 0) (borrow_rate_annual : Option ℚ := none)
    (fx_rates : Option (List (String × ℚ)) := none) : ℚ × AccountState :=
  let rec0 := (get_position st.positions fill.symbol).getD {}
  let symbol_key := fill.symbol.replace "-" "_"
  let r := rec0.apply_fill fill
  let realized_trade_ccy := r.1
  let rec1 := r.2
  let notional := fill.price * fill.quantity
  let notional_account_ccy := convert_or notional symbol_key fx_rates st.account_currency
  let total_cost := notional_account_ccy + fill.commission
  let cu : ℚ × ℚ × List SettlementEntry :=
    match fill.side with
    | .buy => (st.cash - total_cost, st.unsettled_cash, st.settlement_queue)
    | .sell =>
      let proceeds := notional_account_ccy - fill.commission
      if 0 < settlement_days then
        (st.cash, st.unsettled_cash + proceeds,
          st.settlement_queue ++
            [{ amount := proceeds, release_time := fill.timestamp.addDays settlement_days }])
      else
        (st.cash + proceeds, st.unsettled_cash, st.settlement_queue)
  -- borrow cost for shorts, accrued immediately when configured
  let cash2 :=
    if py_truthy borrow_rate_annual && decide (rec1.net_quantity < 0) then
      let borrow_mark := convert_or fill.price symbol_key fx_rates st.account_currency
      cu.1 - borrow_cost (|rec1.net_quantity| * borrow_mark) (borrow_rate_annual.getD 0)
    else cu.1
  -- FX conversion hook keeping realized P&L in account currency
  let rr : ℚ × PositionRecord :=
    if py_dict_truthy fx_rates && (st.account_currency == "USD") && symbol_key.contains '_' then
      match fx_rates with
      | some rates =>
        match convert_to_usd realized_trade_ccy symbol_key rates with
        | .ok realized_converted =>
          if realized_converted ≠ realized_trade_ccy then
            (realized_converted,
              { rec1 with realized_pnl :=
                  rec1.realized_pnl + (realized_converted - realized_trade_ccy) })
          else (realized_converted, rec1)
        | .error _ => (realized_trade_ccy, rec1)
      | none => (realized_trade_ccy, rec1)
    else (realized_trade_ccy, rec1)
  (rr.1,
    { st with
        cash := cash2
        unsettled_cash := cu.2.1
        settlement_queue := cu.2.2
        positions := set_position st.positions fill.symbol rr.2 })

/-- `AccountState.process_settlement`: release settled cash from the queue
(entries whose `release_time` is at or before `current_time`). -/
def AccountState.process_settlement (st : AccountState) (current_time : Timestamp) :
    AccountState :=
  let r := st.settlement_queue.foldl
    (fun (acc : ℚ × ℚ × List SettlementEntry) entry =>
      if entry.release_time ≤ current_time then
        (acc.1 + entry.amount, acc.2.1 - entry.amount, acc.2.2)
      else
        (acc.1, acc.2.1, acc.2.2 ++ [entry]))
    (st.cash, st.unsettled_cash, [])
  { st with cash := r.1, unsettled_cash := r.2.1, settlement_queue := r.2.2 }

/-- `AccountState.apply_daily_swap`: apply financing swaps at roll time using
per-symbol swap rates, at most once per calendar day (tracked via
`last_swap_time`). -/
def AccountState.apply_daily_swap (st : AccountState) (current_time : Timestamp)
    (swap_rates marks : List (String × ℚ))
    (fx_rates : Option (List (String × ℚ)) := none) : AccountState :=
  if !swap_applicable current_time then st
  else if (match st.last_swap_time with
    | some last => decide (last.date = current_time.date)
    | none => false) then st
  else
    let r := st.positions.foldl
      (fun (acc : ℚ × List (String × PositionRecord)) p =>
        let symbol := p.1
        let record := p.2
        if record.net_quantity = 0 then (acc.1, acc.2 ++ [p])
        else
          match dict_get swap_rates symbol with
          | none => (acc.1, acc.2 ++ [p])
          | some rate =>
            match dict_get marks symbol with
            | none => (acc.1, acc.2 ++ [p])
            | some mark =>
              let mark_ccy :=
                convert_or mark (symbol.replace "-" "_") fx_rates st.account_currency
              let multiplier : ℚ := swap_multiplier_for_weekday current_time
              let notional := |record.net_quantity| * mark_ccy
              let cost := daily_swap notional rate * multiplier
              if 0 < record.net_quantity then
                (acc.1 - cost,
                  acc.2 ++ [(symbol, { record with realized_pnl := record.realized_pnl - cost })])
              else
                (acc.1 + cost,
                  acc.2 ++ [(symbol, { record with realized_pnl := record.realized_pnl + cost })]))
      (st.cash, [])
    { st with cash := r.1, positions := r.2, last_swap_time := some current_time }

/-- `liq.core.Position` (external immutable record, as consumed by the
constraint checks and snapshots). -/
structure Position where
  symbol : String
  quantity : ℚ
  average_price : ℚ
  realized_pnl : ℚ
  timestamp : Timestamp
  current_price : ℚ
  deriving DecidableEq, Repr

/-- `liq.core.Position.market_value`.  Modelled from the spec: the external
`liq.core` record values a position at its current (mark) price
(`test_accounting.py` pins `market_value == quantity × current_price`). -/
def Position.market_value (p : Position) : ℚ :=
  p.quantity * p.current_price

/-- `liq.core.PortfolioState` (external immutable snapshot record). -/
structure PortfolioState where
  cash : ℚ
  unsettled_cash : ℚ
  positions : List (String × Position)
  realized_pnl : ℚ
  buying_power : Option ℚ := none
  margin_used : Option ℚ := none
  day_trades_remaining : Option ℤ := none
  timestamp : Timestamp
  equity : ℚ
  deriving DecidableEq, Repr

/-- `AccountState.to_portfolio_state`: immutable snapshot using the provided
mark prices, equity overridden with signed mark-to-market. -/
def AccountState.to_portfolio_state (st : AccountState)
    (marks : List (String × ℚ)) (timestamp : Timestamp)
    (fx_rates : Option (List (String × ℚ)) := none) : PortfolioState :=
  let r := st.positions.foldl
    (fun (acc : List (String × Position) × ℚ × ℚ) p =>
      let symbol := p.1
      let record := p.2
      let qty := record.net_quantity
      let mark := (dict_get marks symbol).getD record.avg_entry_price
      let symbol_key := symbol.replace "-" "_"
      let mark_notional := convert_or (qty * mark) symbol_key fx_rates st.account_currency
      let cost_notional :=
        convert_or (qty * record.avg_entry_price) symbol_key fx_rates st.account_currency
      let mark_for_state := if qty ≠ 0 then mark_notional / qty else mark
      let avg_price_state := if qty ≠ 0 then cost_notional / qty else record.avg_entry_price
      (acc.1 ++ [(symbol,
          { symbol := symbol
            quantity := qty
            average_price := avg_price_state
            realized_pnl := record.realized_pnl
            timestamp := timestamp
            current_price := mark_for_state })],
        acc.2.1 + record.realized_pnl,
        acc.2.2 + mark_notional))
    ([], 0, st.cash + st.unsettled_cash)
  { cash := st.cash
    unsettled_cash := st.unsettled_cash
    positions := r.1
    realized_pnl := r.2.1
    buying_power := none
    margin_used := none
    day_trades_remaining := st.day_trades_remaining
    timestamp := timestamp
    equity := r.2.2 }

/-! ## `liq/sim/brackets.py` — stop-loss / take-profit (OCO) -/

/-- `brackets.BracketState`: active bracket legs for a parent order.
`parent_id` is the parent's `client_order_id` (a string of the UUID in the
source; the identifier itself here). -/
structure BracketState where
  stop_loss : Option OrderRequest
  take_profit : Option OrderRequest
  parent_id : ℕ
  deriving DecidableEq, Repr

/-- `brackets.create_brackets`: contingent stop-loss / take-profit orders for
a filled entry, when the entry carried the corresponding metadata prices.
`sl_id`/`tp_id` model the `client_order_id`s the external `liq.core` order
model generates for the new child orders (the Python `if entry_order.metadata:`
truthiness guard is behaviourally the `.get` result being `None`). -/
def create_brackets (entry_fill_price : ℚ) (entry_order : OrderRequest)
    (sl_id tp_id : ℕ) : BracketState :=
  let _ := entry_fill_price
  let sl_price := entry_order.metadata.stop_loss_price
  let tp_price := entry_order.metadata.take_profit_price
  let stop_loss : Option OrderRequest :=
    match sl_price with
    | none => none
    | some p =>
      some { client_order_id := sl_id
             symbol := entry_order.symbol
             side := if entry_order.side = .buy then .sell else .buy
             order_type := .stop
             quantity := entry_order.quantity
             stop_price := some p
             time_in_force := entry_order.time_in_force
             timestamp := entry_order.timestamp }
  let take_profit : Option OrderRequest :=
    match tp_price with
    | none => none
    | some p =>
      some { client_order_id := tp_id
             symbol := entry_order.symbol
             side := if entry_order.side = .buy then .sell else .buy
             order_type := .limit
             quantity := entry_order.quantity
             limit_price := some p
             time_in_force := entry_order.time_in_force
             timestamp := entry_order.timestamp }
  { stop_loss := stop_loss, take_profit := take_profit
    parent_id := entry_order.client_order_id }

/-- `brackets.process_brackets`: which bracket leg (if any) triggers on this
bar, with the adverse-path rule.  Comparing a bar price against a leg whose
trigger price is `None` is a Python `TypeError` (`.error .typeError`). -/
def process_brackets (bracket : BracketState) (bar_high bar_low : ℚ) :
    Except PyErr (Option OrderRequest × Option OrderRequest) := do
  let sl_trigger : Bool ←
    match bracket.stop_loss with
    | none => pure false
    | some o =>
      match o.stop_price with
      | none => Except.error PyErr.typeError
      | some sp =>
        pure (match o.side with
          | .sell => decide (bar_low ≤ sp)
          | .buy => decide (sp ≤ bar_high))
  let tp_trigger : Bool ←
    match bracket.take_profit with
    | none => pure false
    | some o =>
      match o.limit_price with
      | none => Except.error PyErr.typeError
      | some lp =>
        pure (match o.side with
          | .sell => decide (lp ≤ bar_high)
          | .buy => decide (bar_low ≤ lp))
  if sl_trigger && tp_trigger then
    -- adverse path: stop-loss wins
    pure (bracket.stop_loss, none)
  else if sl_trigger then pure (bracket.stop_loss, none)
  else if tp_trigger then pure (bracket.take_profit, none)
  else pure (none, none)

/-! ## `liq/sim/constraints.py` — risk and constraint checks

`ConstraintViolation` carries an interpolated message string; the messages are
modelled by the `ViolationMsg` inductive, one constructor per `raise` site
with the interpolated values as arguments. -/

/-- The messages of the `ConstraintViolation`s raised in `constraints.py`. -/
inductive ViolationMsg where
  /-- "Insufficient buying power: order value … exceeds available …" -/
  | insufficientBuyingPower (order_value available : ℚ)
  /-- "Margin requirement exceeds equity: required …, available equity …" -/
  | marginExceedsEquity (required equity : ℚ)
  /-- "Locate required for short selling …: no locate_available or
  locate_borrowed in metadata" -/
  | locateRequiredForShort (symbol : String)
  /-- "Shorting not permitted: sell qty … exceeds position …" -/
  | shortingNotPermitted (qty pos : ℚ)
  /-- "Cannot trade with non-positive equity: …" (raised by both the
  position-limit and the gross-leverage check) -/
  | nonPositiveEquity (equity : ℚ)
  /-- "Position limit exceeded: order value … exceeds max …" -/
  | positionLimitExceeded (order_value max_value : ℚ)
  /-- "Gross leverage exceeded: projected … > cap …" -/
  | grossLeverageExceeded (projected cap : ℚ)
  /-- "PDT limit exceeded: … day trades remaining, order would create a day
  trade" -/
  | pdtLimitExceeded (remaining : ℤ)
  /-- "Kill switch engaged; exposure-increasing orders blocked" -/
  | killSwitchEngaged
  deriving DecidableEq, Repr

/-- Lookup in a portfolio's insertion-ordered positions dict. -/
def portfolio_get (ps : List (String × Position)) (sym : String) :
    Option Position :=
  (ps.find? (fun p => p.1 == sym)).map (·.2)

/-- `constraints.check_buying_power`: buys only; order value must not exceed
cash + unsettled cash. -/
def check_buying_power (order : OrderRequest) (portfolio : PortfolioState)
    (mark_price : ℚ) : Except ViolationMsg Unit :=
  if order.side = .sell then .ok ()
  else
    let order_value := order.quantity * mark_price
    let available := portfolio.cash + portfolio.unsettled_cash
    if available < order_value then
      .error (.insufficientBuyingPower order_value available)
    else .ok ()

/-- `constraints.check_margin`: buys only; order value × initial margin rate
must not exceed equity. -/
def check_margin (order : OrderRequest) (portfolio : PortfolioState)
    (mark_price initial_margin_rate : ℚ) : Except ViolationMsg Unit :=
  if order.side = .sell then .ok ()
  else
    let equity := portfolio.equity
    let required := order.quantity * mark_price * initial_margin_rate
    if equity < required then .error (.marginExceedsEquity required equity)
    else .ok ()

/-- `constraints.check_short_permission`: prevent new shorts when not
permitted; with shorts enabled and a locate requirement, a sell driving the
position negative must carry a positive locate flag in its metadata. -/
def check_short_permission (order : OrderRequest) (portfolio : PortfolioState)
    (short_enabled : Bool) (locate_required : Bool := false) :
    Except ViolationMsg Unit :=
  if short_enabled then
    if locate_required && decide (order.side = .sell) then
      let pre_qty := ((portfolio_get portfolio.positions order.symbol).map
        (·.quantity)).getD 0
      let would_be_short := decide (pre_qty - order.quantity < 0)
      if would_be_short then
        let locate_ok := order.metadata.locate_available || order.metadata.locate_borrowed
        if !locate_ok then .error (.locateRequiredForShort order.symbol)
        else .ok ()
      else .ok ()
    else .ok ()
  else
    if order.side = .sell then
      let pre_qty := ((portfolio_get portfolio.positions order.symbol).map
        (·.quantity)).getD 0
      if pre_qty < order.quantity then
        .error (.shortingNotPermitted order.quantity pre_qty)
      else .ok ()
    else .ok ()

/-- `constraints.check_position_limit`: buys only; post-trade order value
must not exceed `max_position_pct × equity`, and non-positive equity is
itself a rejection. -/
def check_position_limit (order : OrderRequest) (portfolio : PortfolioState)
    (max_position_pct : ℚ) (mark_price : ℚ) : Except ViolationMsg Unit :=
  if order.side = .sell then .ok ()
  else
    let equity := portfolio.equity
    if equity ≤ 0 then .error (.nonPositiveEquity equity)
    else
      let target_value := order.quantity * mark_price
      let max_value := max_position_pct * equity
      if max_value < target_value then
        .error (.positionLimitExceeded target_value max_value)
      else .ok ()

/-- `constraints.check_gross_leverage`: projected gross exposure (existing
absolute position market values, plus the order's value for both buys and
sells) must not exceed `max_gross_leverage × equity`. -/
def check_gross_leverage (order : OrderRequest) (portfolio : PortfolioState)
    (mark_price : ℚ) (max_gross_leverage : ℚ) : Except ViolationMsg Unit :=
  let equity := portfolio.equity
  if equity ≤ 0 then .error (.nonPositiveEquity equity)
  else
    let gross := (portfolio.positions.map (fun p => |p.2.market_value|)).sum
    let order_value := order.quantity * mark_price
    let projected_gross :=
      if order.side = .buy ∨ order.side = .sell then gross + order_value
      else gross
    let cap := max_gross_leverage * equity
    if cap < projected_gross then
      .error (.grossLeverageExceeded projected_gross cap)
    else .ok ()

/-- `constraints.check_pdt`: with a PDT counter present, an order that would
create a day trade requires day trades remaining. -/
def check_pdt (portfolio : PortfolioState) (is_day_trade : Bool) :
    Except ViolationMsg Unit :=
  match portfolio.day_trades_remaining with
  | none => .ok ()
  | some remaining =>
    if is_day_trade && decide (remaining ≤ 0) then
      .error (.pdtLimitExceeded remaining)
    else .ok ()

/-- `constraints.check_kill_switch`: block exposure-increasing (buy) orders
when the kill-switch is engaged. -/
def check_kill_switch (kill_switch_engaged : Bool) (order : OrderRequest) :
    Except ViolationMsg Unit :=
  if kill_switch_engaged && decide (order.side = .buy) then
    .error .killSwitchEngaged
  else .ok ()

/-! ## `liq/sim/risk_caps.py` — risk-cap decision helpers -/

/-- `risk_caps.enforce_net_position_cap`. -/
def enforce_net_position_cap (net_exposure equity : ℚ) (cap_pct : Option ℚ) :
    Bool :=
  match cap_pct with
  | none => true
  | some pct =>
    if equity ≤ 0 then false
    else decide (|net_exposure| ≤ pct * equity)

/-- `risk_caps.enforce_pyramiding_limit`. -/
def enforce_pyramiding_limit (current_layers : ℕ) (max_layers : Option ℕ) :
    Bool :=
  match max_layers with
  | none => true
  | some m => decide (current_layers < m)

/-- `risk_caps.enforce_equity_floor`. -/
def enforce_equity_floor (equity : ℚ) (floor_pct : Option ℚ)
    (starting_equity : ℚ) : Bool :=
  match floor_pct with
  | none => true
  | some pct => decide (pct * starting_equity ≤ equity)

/-- `risk_caps.enforce_frequency_cap`. -/
def enforce_frequency_cap (trades_today : ℕ) (cap : Option ℕ) : Bool :=
  match cap with
  | none => true
  | some c => decide (trades_today < c)

/-! ## `liq/sim/models/` and `liq/sim/providers.py` — fee & slippage models

The provider factories (`fee_model_from_config`, `slippage_model_from_config`)
dispatch on a model-name string and build one of a closed set of model
objects from the parameter dict; the dispatch plus parameters are modelled as
inductives carrying the constructor arguments. -/

/-- The commission models of `models/fee.py`. -/
inductive FeeModel where
  | tieredMakerTaker (maker_bps taker_bps : ℚ)
  | zeroCommission
  | perShare (per_share : ℚ) (min_per_order : Option ℚ)
  deriving DecidableEq, Repr

/-- `CommissionModel.calculate` for each model. -/
def FeeModel.calculate (m : FeeModel) (order : OrderRequest) (fill_price : ℚ)
    (is_maker : Bool) : ℚ :=
  match m with
  | .tieredMakerTaker maker_bps taker_bps =>
    let notional := order.quantity * fill_price
    let bps := if is_maker then maker_bps else taker_bps
    notional * bps / 10000
  | .zeroCommission => 0
  | .perShare per_share min_per_order =>
    let fee := per_share * order.quantity
    match min_per_order with
    | none => fee
    | some m => max fee m

/-- The slippage models of `models/slippage.py` and `models/spread.py`. -/
inductive SlippageModel where
  | volumeWeighted (base_bps volume_impact : ℚ)
  | pfof (adverse_bps : ℚ)
  | spreadBased
  deriving DecidableEq, Repr

/-- `SlippageModel.calculate` for each model.  The embedded `Bar` carries no
`spread` attribute (the `liq.core` bar has none), so `SpreadBasedSlippage`
always takes its `high - low` fallback. -/
def SlippageModel.calculate (m : SlippageModel) (order : OrderRequest)
    (bar : Bar) : ℚ :=
  match m with
  | .volumeWeighted base_bps volume_impact =>
    let volume := bar.volume
    let participation : ℚ :=
      if 0 < volume then
        let ratio := order.quantity / volume
        if ratio < 1 then ratio else 1
      else 0
    let slippage_bps := base_bps + volume_impact * participation
    bar.midrange * slippage_bps / 10000
  | .pfof adverse_bps => bar.midrange * adverse_bps / 10000
  | .spreadBased => (bar.high - bar.low) / 2

/-! ## `liq/sim/config.py` — configuration records

Only the fields the embedded core consults are carried; the logging,
calibration, EV-threshold, survivorship/overfitting-warning and
slippage-percentile-reporting options configure out-of-core behaviour (or the
float-valued percentile report, which is outside the money path) and are
omitted. -/

/-- `config.FundingConfig`. -/
structure FundingConfig where
  scenario : String := "base"
  enabled : Bool := false
  deriving DecidableEq, Repr

/-- `config.RiskCapsConfig` (fields are validated into `(0,1)` percents resp.
positive integers at construction; carried as optional rationals/naturals). -/
structure RiskCapsConfig where
  net_position_cap_pct : Option ℚ := none
  pyramiding_layers : Option ℕ := none
  equity_floor_pct : Option ℚ := none
  frequency_cap_per_day : Option ℕ := none
  deriving DecidableEq, Repr

/-- `RiskCapsConfig`'s field validators (`validate_pct`,
`validate_positive_int`): optional percentages must lie strictly inside
`(0, 1)` and optional integer limits must be positive; a configuration is
constructible exactly when this holds. -/
def RiskCapsConfig.validated (c : RiskCapsConfig) : Bool :=
  (match c.net_position_cap_pct with
   | none => true
   | some v => decide (0 < v) && decide (v < 1)) &&
  (match c.equity_floor_pct with
   | none => true
   | some v => decide (0 < v) && decide (v < 1)) &&
  (match c.pyramiding_layers with
   | none => true
   | some v => decide (0 < v)) &&
  (match c.frequency_cap_per_day with
   | none => true
   | some v => decide (0 < v))

/-- `config.SimulatorConfig` (PRD defaults). -/
structure SimulatorConfig where
  initial_capital : ℚ := 10000
  min_order_delay_bars : ℕ := 1
  max_daily_loss_pct : Option ℚ := none
  max_drawdown_pct : Option ℚ := none
  max_position_pct : ℚ := 1/4
  max_gross_leverage : ℚ := 2
  checkpoint_interval : ℕ := 0
  random_seed : ℤ := 42
  funding : FundingConfig := {}
  risk_caps : RiskCapsConfig := {}
  deriving DecidableEq, Repr

/-- `config.ProviderConfig`.  The `fee_model`/`fee_params` and
`slippage_model`/`slippage_params` string-plus-dict pairs are carried as the
models the provider factories construct from them. -/
structure ProviderConfig where
  name : String := "mock"
  asset_classes : List String := ["equities"]
  fee_model : FeeModel := .zeroCommission
  slippage_model : SlippageModel := .pfof 0
  margin_type : Option String := none
  initial_margin_rate : ℚ := 1
  maintenance_margin_rate : ℚ := 1
  short_enabled : Bool := false
  borrow_rate_annual : Option ℚ := none
  locate_required : Bool := false
  settlement_days : ℕ := 0
  pdt_enabled : Bool := false
  pdt_min_equity : ℚ := 25000
  account_currency : String := "USD"
  deriving DecidableEq, Repr

/-! ## `liq/sim/funding_model.py` — funding scenarios

The source computes funding charges in floats; the scenario rates
(0.03 / 0.08 / 0.15 annual) are exact decimal literals, modelled as
rationals. -/

/-- `funding_model.SCENARIOS` annual rate for a named scenario, with the
`.get(scenario, SCENARIOS["base"])` fallback. -/
def scenario_annual_rate (scenario : String) : ℚ :=
  if scenario == "base" then 3/100
  else if scenario == "elevated" then 8/100
  else if scenario == "spike" then 15/100
  else 3/100

/-- `funding_model.funding_charge`. -/
def funding_charge (notional : ℚ) (days : ℚ) (scenario : String) : ℚ :=
  let daily_rate := scenario_annual_rate scenario / 365
  notional * daily_rate * days

/-! ## `liq/sim/checkpoint.py` — checkpoint loading

`msgspec.msgpack.decode` is an external library: a checkpoint file is
modelled by its raw bytes together with the outcome of decoding them
(`none` = `msgspec.DecodeError`), and a successfully decoded dict by the
typed fields `_dict_to_checkpoint` reads from it. -/

/-- `checkpoint.CHECKPOINT_SCHEMA_VERSION`. -/
def CHECKPOINT_SCHEMA_VERSION : ℤ := 1

/-- `checkpoint.SimulationCheckpoint`: serializable snapshot of simulator
state.  `random_state` is the serialized `random.getstate()` tuple, opaque
to the loader. -/
structure SimulationCheckpoint where
  backtest_id : String
  config_hash : String
  provider_config : ProviderConfig
  simulator_config : SimulatorConfig
  account_state : AccountState
  current_day : Option Timestamp
  peak_equity : ℚ
  daily_start_equity : ℚ
  kill_switch_engaged : Bool
  active_brackets : List BracketState
  random_state : List ℤ
  schema_version : ℤ := CHECKPOINT_SCHEMA_VERSION
  deriving DecidableEq, Repr

/-- A decoded checkpoint dict, with the fields `_dict_to_checkpoint` reads.
`schema_version` is `none` when the key is absent (Python `.get`). -/
structure CheckpointDict where
  schema_version : Option ℤ
  backtest_id : String
  config_hash : String
  provider_config : ProviderConfig
  simulator_config : SimulatorConfig
  account_state : AccountState
  current_day : Option Timestamp
  peak_equity : ℚ
  daily_start_equity : ℚ
  kill_switch_engaged : Bool
  active_brackets : List BracketState
  random_state : List ℤ
  deriving DecidableEq, Repr

/-- What `msgspec.msgpack.decode` can successfully return, as far as `load`
inspects it: a dict with the checkpoint fields, or any non-dict value
(carrying its type name for the error message). -/
inductive MsgpackValue where
  | dict (d : CheckpointDict)
  | other (type_name : String)
  deriving DecidableEq, Repr

/-- A checkpoint file on disk: its raw bytes and their decode outcome
(`none` models `msgspec.DecodeError`).  Modelled from the spec: the msgpack
codec itself is an external library. -/
structure CheckpointFile where
  bytes : List ℕ
  decoded : Option MsgpackValue
  deriving DecidableEq, Repr

/-- The message of each error `SimulationCheckpoint.load` can raise, one
constructor per raise site with its interpolated values. -/
inductive CheckpointErrMsg where
  /-- "… appears to be in legacy pickle format. …" -/
  | legacyPickleFormat
  /-- "Failed to decode checkpoint file …" -/
  | failedToDecode
  /-- "Invalid checkpoint format: expected dict, got …" -/
  | invalidNotDict (type_name : String)
  /-- "Checkpoint schema version … is newer than supported version …" -/
  | schemaVersionNewer (found supported : ℤ)
  /-- "Config hash mismatch: checkpoint has …, expected …" -/
  | configHashMismatch (found expected : String)
  deriving DecidableEq, Repr

/-- An exception escaping `SimulationCheckpoint.load`: its Python class
(`CheckpointFormatError` or `ValueError`) together with its message. -/
inductive CheckpointLoadError where
  | checkpointFormatError (msg : CheckpointErrMsg)
  | valueError (msg : CheckpointErrMsg)
  deriving DecidableEq, Repr

/-- The Python exception class of a load error. -/
inductive PyExcKind where
  | checkpointFormatError
  | valueError
  deriving DecidableEq, Repr

/-- Project a load error to its exception class. -/
def CheckpointLoadError.kind : CheckpointLoadError → PyExcKind
  | .checkpointFormatError _ => .checkpointFormatError
  | .valueError _ => .valueError

/-- `checkpoint._dict_to_checkpoint` (its `data.get("schema_version", 1)`
default differs from the `0` default used for validation in `load`). -/
def dict_to_checkpoint (d : CheckpointDict) : SimulationCheckpoint :=
  { schema_version := d.schema_version.getD 1
    backtest_id := d.backtest_id
    config_hash := d.config_hash
    provider_config := d.provider_config
    simulator_config := d.simulator_config
    account_state := d.account_state
    current_day := d.current_day
    peak_equity := d.peak_equity
    daily_start_equity := d.daily_start_equity
    kill_switch_engaged := d.kill_switch_engaged
    active_brackets := d.active_brackets
    random_state := d.random_state }

/-- `SimulationCheckpoint.load`: reject legacy-pickle magic, decode failures,
non-dict content and too-new schema versions with `CheckpointFormatError`,
and a config-hash mismatch (when an expected hash is supplied) with
`ValueError`. -/
def SimulationCheckpoint.load (file : CheckpointFile)
    (expected_config_hash : Option String := none) :
    Except CheckpointLoadError SimulationCheckpoint :=
  -- check for pickle format (legacy files)
  if file.bytes.take 2 = [0x80, 0x04] ∨ file.bytes.take 1 = [0x80] then
    .error (.checkpointFormatError .legacyPickleFormat)
  else
    match file.decoded with
    | none => .error (.checkpointFormatError .failedToDecode)
    | some (.other type_name) =>
      .error (.checkpointFormatError (.invalidNotDict type_name))
    | some (.dict d) =>
      let schema_version := d.schema_version.getD 0
      if CHECKPOINT_SCHEMA_VERSION < schema_version then
        .error (.checkpointFormatError
          (.schemaVersionNewer schema_version CHECKPOINT_SCHEMA_VERSION))
      else
        let chk := dict_to_checkpoint d
        match expected_config_hash with
        | some expected =>
          if chk.config_hash ≠ expected then
            .error (.valueError (.configHashMismatch chk.config_hash expected))
          else .ok chk
        | none => .ok chk

/-! ## `liq/sim/simulator.py` — the event loop -/

/-- The reason recorded with a rejection: the literal cap-name strings the
event loop appends for failed risk caps, or the message of a caught
`ConstraintViolation`. -/
inductive RejectReason where
  /-- "Net position cap" -/
  | netPositionCap
  /-- "Equity floor breached" -/
  | equityFloorBreached
  /-- "Frequency cap reached" -/
  | frequencyCapReached
  /-- "Pyramiding cap" -/
  | pyramidingCap
  /-- `e.message` of a caught `ConstraintViolation` -/
  | violation (msg : ViolationMsg)
  deriving DecidableEq, Repr

/-- `simulator.RejectedOrder`. -/
structure RejectedOrder where
  order : OrderRequest
  reason : RejectReason
  timestamp : Timestamp
  deriving DecidableEq, Repr

/-- `simulator.SimulationResult`.  `slippage_stats` (float percentiles of the
samples, computed through numpy) is outside the money path and the embedding;
the exact samples it is computed from are returned instead. -/
structure SimulationResult where
  fills : List Fill
  portfolio_history : List ℚ
  equity_curve : List (Timestamp × ℚ)
  portfolio_states : List PortfolioState
  slippage_samples : List ℚ
  funding_charged : ℚ
  rejected_orders : List RejectedOrder
  deriving DecidableEq, Repr

/-- The persistent fields of the `Simulator` dataclass. -/
structure Simulator where
  provider_config : ProviderConfig
  config : SimulatorConfig := {}
  account_state : AccountState := { cash := 0 }
  peak_equity : ℚ := 0
  daily_start_equity : ℚ := 0
  kill_switch_engaged : Bool := false
  current_day : Option Timestamp := none
  active_brackets : List BracketState := []
  trades_today : ℕ := 0
  starting_equity : ℚ := 0
  deriving DecidableEq, Repr

/-- `Simulator.__post_init__`: capitalize the account from
`initial_capital` when the account starts flat, set the account currency,
initialize peak/daily/starting equity, and default the PDT counter.
(Model construction and RNG seeding are external side effects.) -/
def mk_simulator (provider_config : ProviderConfig)
    (config : SimulatorConfig := {})
    (account_state : AccountState := { cash := 0 }) : Simulator :=
  let account1 :=
    if account_state.cash = 0 ∧ config.initial_capital ≠ 0 then
      { account_state with cash := config.initial_capital }
    else account_state
  let account2 := { account1 with account_currency := provider_config.account_currency }
  let init_equity := account2.cash + account2.unsettled_cash
  let account3 :=
    if provider_config.pdt_enabled ∧ account2.day_trades_remaining = none then
      { account2 with day_trades_remaining := some 3 }
    else account2
  { provider_config := provider_config
    config := config
    account_state := account3
    peak_equity := init_equity
    daily_start_equity := init_equity
    starting_equity := init_equity }

/-- `Simulator._mark_in_account_ccy`: convert a mark to account currency when
possible. -/
def mark_in_account_ccy (account_currency : String) (price : ℚ) (symbol : String)
    (fx_rates : Option (List (String × ℚ))) : ℚ :=
  if py_dict_truthy fx_rates && (account_currency == "USD") then
    let pair := symbol.replace "-" "_"
    if !pair.contains '_' then price
    else
      match fx_rates with
      | some rates =>
        match convert_to_usd price pair rates with
        | .ok v => v
        | .error _ => price
      | none => price
  else price

/-- The in-flight state of one `run` invocation: the simulator's persistent
fields plus the loop-local accumulators and queues.  `next_order_id` models
the external generation of fresh `client_order_id`s for bracket legs. -/
structure RunState where
  sim : Simulator
  fills : List Fill := []
  equity_curve : List (Timestamp × ℚ) := []
  portfolio_states : List PortfolioState := []
  rejected_orders : List RejectedOrder := []
  funding_total : ℚ := 0
  slippage_samples : List ℚ := []
  pending : List (ℕ × OrderRequest) := []
  active_orders : List OrderRequest := []
  next_order_id : ℕ := 0
  deriving DecidableEq, Repr

/-- Stable insertion of a pending entry by origin index (strictly-smaller
keys stay ahead; equal keys keep input order). -/
def insert_by_origin (x : ℕ × OrderRequest) :
    List (ℕ × OrderRequest) → List (ℕ × OrderRequest)
  | [] => [x]
  | y :: rest => if y.1 < x.1 then y :: insert_by_origin x rest else x :: y :: rest

/-- Python's stable `sorted(pending, key=lambda x: x[0])`. -/
def sort_pending : List (ℕ × OrderRequest) → List (ℕ × OrderRequest)
  | [] => []
  | x :: rest => insert_by_origin x (sort_pending rest)

/-- The activation loop at the top of each bar: pop pending orders whose
origin index has been reached, stopping at the first entry still inside the
`min_delay` window; `assert_no_lookahead` runs before each activation and
aborts the run.  Returns the remaining queue and the extended active list.
(The Python `became_eligible[id(order)] = True` bookkeeping is implied: every
member of `active_orders` was appended here.) -/
def activate_orders (min_delay bar_idx : ℕ) (bar_ts : Timestamp) :
    List (ℕ × OrderRequest) → List OrderRequest →
    Except PyErr (List (ℕ × OrderRequest) × List OrderRequest)
  | [], active => .ok ([], active)
  | (origin_idx, order) :: rest, active =>
    if origin_idx ≤ bar_idx then
      if bar_idx - origin_idx < min_delay then
        .ok ((origin_idx, order) :: rest, active)
      else do
        let _ ← assert_no_lookahead order.timestamp bar_ts
        activate_orders min_delay bar_idx bar_ts rest (active ++ [order])
    else .ok ((origin_idx, order) :: rest, active)

/-- The per-order body of the event loop (risk caps, kill-switch, PDT
detection, constraint gauntlet, match, fill application, bracket creation).
Returns the updated run state and whether the order executed.  The per-bar
`mark_cache` of the source is semantically transparent (the cached value
equals the recomputed one) and is not modelled. -/
def process_order (fx_rates : Option (List (String × ℚ))) (bar : Bar)
    (rs : RunState) (order : OrderRequest) : Except PyErr (RunState × Bool) :=
  let sim := rs.sim
  let pcfg := sim.provider_config
  let cfg := sim.config
  let mark_for_constraints :=
    mark_in_account_ccy sim.account_state.account_currency bar.open_ order.symbol fx_rates
  -- fresh snapshot using current account state (after any earlier fills this bar)
  let pre_marks := sim.account_state.positions.map (fun p => (p.1, bar.open_))
  let portfolio_snapshot :=
    sim.account_state.to_portfolio_state pre_marks bar.timestamp fx_rates
  let net_exposure :=
    (portfolio_snapshot.positions.map (fun p => |p.2.market_value|)).sum
  let reject : RejectReason → RunState := fun reason =>
    { rs with rejected_orders := rs.rejected_orders ++
        [{ order := order, reason := reason, timestamp := bar.timestamp }] }
  if !enforce_net_position_cap net_exposure portfolio_snapshot.equity
      cfg.risk_caps.net_position_cap_pct then
    .ok (reject .netPositionCap, false)
  else if !enforce_equity_floor portfolio_snapshot.equity
      cfg.risk_caps.equity_floor_pct sim.starting_equity then
    .ok (reject .equityFloorBreached, false)
  else if !enforce_frequency_cap sim.trades_today
      cfg.risk_caps.frequency_cap_per_day then
    .ok (reject .frequencyCapReached, false)
  else if !enforce_pyramiding_limit 1 cfg.risk_caps.pyramiding_layers then
    .ok (reject .pyramidingCap, false)
  else
    match check_kill_switch sim.kill_switch_engaged order with
    | .error e => .ok (reject (.violation e), false)
    | .ok _ =>
      -- PDT: would this order be the same-day closing leg of a round-trip?
      let pre_qty := ((get_position sim.account_state.positions order.symbol).map
        (·.net_quantity)).getD 0
      let is_day_trade :=
        if order.timestamp.date = bar.timestamp.date then
          if 0 < pre_qty ∧ order.side = .sell then
            decide (pre_qty - order.quantity ≤ 0)
          else if pre_qty < 0 ∧ order.side = .buy then
            decide (0 ≤ pre_qty + order.quantity)
          else false
        else false
      let checks : Except ViolationMsg Unit := do
        check_position_limit order portfolio_snapshot cfg.max_position_pct
          mark_for_constraints
        check_buying_power order portfolio_snapshot mark_for_constraints
        check_margin order portfolio_snapshot mark_for_constraints
          pcfg.initial_margin_rate
        check_gross_leverage order portfolio_snapshot mark_for_constraints
          cfg.max_gross_leverage
        check_short_permission order portfolio_snapshot pcfg.short_enabled
          pcfg.locate_required
        check_pdt portfolio_snapshot is_day_trade
      match checks with
      | .error e => .ok (reject (.violation e), false)
      | .ok _ =>
        let slippage := pcfg.slippage_model.calculate order bar
        -- naive maker/taker heuristic: limits with price away from open are maker
        let is_maker :=
          decide (order.order_type = .limit) &&
            ((decide (order.side = .buy) && py_truthy order.limit_price &&
                decide (order.limit_price.getD 0 < bar.open_)) ||
             (decide (order.side = .sell) && py_truthy order.limit_price &&
                decide (bar.open_ < order.limit_price.getD 0)))
        let commission := pcfg.fee_model.calculate order bar.open_ is_maker
        match match_order order bar slippage commission pcfg.name (some bar.timestamp) with
        | .error e => .error e
        | .ok none => .ok (rs, false)
        | .ok (some fill) =>
          let day_trades' :=
            if is_day_trade then
              match sim.account_state.day_trades_remaining with
              | some r => some (max 0 (r - 1))
              | none => none
            else sim.account_state.day_trades_remaining
          let account1 := { sim.account_state with day_trades_remaining := day_trades' }
          let ra := account1.apply_fill fill pcfg.settlement_days
            pcfg.borrow_rate_annual fx_rates
          let bracket := create_brackets fill.price order rs.next_order_id
            (rs.next_order_id + 1)
          let brackets' :=
            if bracket.stop_loss.isSome || bracket.take_profit.isSome then
              sim.active_brackets ++ [bracket]
            else sim.active_brackets
          .ok ({ rs with
              sim := { sim with
                account_state := ra.2
                trades_today := sim.trades_today + 1
                active_brackets := brackets' }
              fills := rs.fills ++ [{ fill with realized_pnl := some ra.1 }]
              slippage_samples := rs.slippage_samples ++ [slippage]
              next_order_id := rs.next_order_id + 2 }, true)

/-- The per-bar order loop: process each active order in insertion order,
collecting the executed ones. -/
def order_loop (fx_rates : Option (List (String × ℚ))) (bar : Bar) :
    List OrderRequest → RunState → List OrderRequest →
    Except PyErr (RunState × List OrderRequest)
  | [], rs, executed => .ok (rs, executed)
  | order :: rest, rs, executed => do
    let r ← process_order fx_rates bar rs order
    order_loop fx_rates bar rest r.1 (if r.2 then executed ++ [order] else executed)

/-- The per-bar bracket loop: each active bracket is checked against the
bar's high/low; a triggering leg is matched against the same bar (taker fee,
no constraint pipeline) and applied to the account, and the bracket is
dropped whether or not the leg filled; non-triggering brackets persist.  The
caller passes the bracket list and a state whose `active_brackets` was
cleared, which this loop refills with the survivors. -/
def bracket_loop (fx_rates : Option (List (String × ℚ))) (bar : Bar) :
    List BracketState → RunState → Except PyErr RunState
  | [], rs => .ok rs
  | bracket :: rest, rs => do
    let tr ← process_brackets bracket bar.high bar.low
    match tr.1 with
    | some trigger =>
      let pcfg := rs.sim.provider_config
      let slippage := pcfg.slippage_model.calculate trigger bar
      let commission := pcfg.fee_model.calculate trigger bar.open_ false
      match match_order trigger bar slippage commission pcfg.name (some bar.timestamp) with
      | .error e => .error e
      | .ok none => bracket_loop fx_rates bar rest rs
      | .ok (some fill) =>
        let ra := rs.sim.account_state.apply_fill fill pcfg.settlement_days
          pcfg.borrow_rate_annual fx_rates
        bracket_loop fx_rates bar rest { rs with
          sim := { rs.sim with
            account_state := ra.2
            trades_today := rs.sim.trades_today + 1 }
          fills := rs.fills ++ [{ fill with realized_pnl := some ra.1 }]
          slippage_samples := rs.slippage_samples ++ [slippage] }
    | none =>
      bracket_loop fx_rates bar rest { rs with
        sim := { rs.sim with active_brackets := rs.sim.active_brackets ++ [bracket] } }

/-- Step 1 of the per-bar sequence: the daily reset (new calendar day
snapshots the daily-start equity and resets the intraday trade count). -/
def daily_reset (fx_rates : Option (List (String × ℚ))) (bar : Bar)
    (sim : Simulator) : Simulator :=
  if (match sim.current_day with
      | none => true
      | some d => decide (bar.timestamp.date ≠ d.date)) then
    let marks := sim.account_state.positions.map (fun p => (p.1, bar.open_))
    let snapshot := sim.account_state.to_portfolio_state marks bar.timestamp fx_rates
    { sim with
        daily_start_equity := snapshot.equity
        current_day := some bar.timestamp
        trades_today := 0 }
  else sim

/-- Step 4 of the per-bar sequence: the per-position funding loop (longs
pay, shorts receive, all charges accumulate into the funding total). -/
def funding_fold (scenario : String) (bar : Bar) (account : AccountState) :
    ℚ × AccountState :=
  let z := account.positions.foldl
    (fun (acc : ℚ × ℚ × List (String × PositionRecord)) p =>
      let record := p.2
      if record.net_quantity = 0 then (acc.1, acc.2.1, acc.2.2 ++ [p])
      else
        let mark := bar.close
        let notional := |record.net_quantity * mark|
        let charge := funding_charge notional 1 scenario
        if 0 < record.net_quantity then
          (acc.1 + charge, acc.2.1 - charge,
            acc.2.2 ++ [(p.1, { record with realized_pnl := record.realized_pnl - charge })])
        else
          (acc.1 + charge, acc.2.1 + charge,
            acc.2.2 ++ [(p.1, { record with realized_pnl := record.realized_pnl + charge })]))
    (0, account.cash, [])
  (z.1, { account with cash := z.2.1, positions := z.2.2 })

/-- Steps 2-4 of the per-bar sequence: settlement release, daily swaps when
swap rates were supplied, and the funding charge when enabled.  Returns the
funding charged on this bar alongside the updated account. -/
def bar_accounts (swap_rates fx_rates : Option (List (String × ℚ)))
    (cfg : SimulatorConfig) (bar : Bar) (account : AccountState) :
    ℚ × AccountState :=
  let account2 := account.process_settlement bar.timestamp
  let account3 :=
    if py_dict_truthy swap_rates then
      let marks_for_swaps := account2.positions.map (fun p => (p.1, bar.close))
      account2.apply_daily_swap bar.timestamp (swap_rates.getD []) marks_for_swaps fx_rates
    else account2
  if cfg.funding.enabled then funding_fold cfg.funding.scenario bar account3
  else (0, account3)

/-- Step 6 of the per-bar sequence: the running peak-equity update. -/
def peak_update (peak current_equity : ℚ) : ℚ :=
  if peak < current_equity then current_equity else peak

/-- Step 7 of the per-bar sequence: kill-switch re-evaluation against the
drawdown and daily-loss thresholds (engagement is sticky). -/
def kill_reeval (cfg : SimulatorConfig) (current_equity peak daily_start : ℚ)
    (k : Bool) : Bool :=
  let kill1 :=
    match cfg.max_drawdown_pct with
    | some pct => if current_equity < peak * (1 - pct) then true else k
    | none => k
  match cfg.max_daily_loss_pct with
  | some pct => if current_equity < daily_start * (1 - pct) then true else kill1
  | none => kill1

/-- One pass of the per-bar sequence (daily reset, settlement, swaps,
funding, open-equity snapshot with the equity floor, peak / kill-switch
updates, activation, order loop, bracket loop, DAY expiry, close snapshot).
Returns the updated state and whether the equity floor halted the run. -/
def process_bar (fx_rates swap_rates : Option (List (String × ℚ)))
    (min_delay bar_idx : ℕ) (bar : Bar) (rs : RunState) :
    Except PyErr (RunState × Bool) :=
  -- 1. daily reset
  let sim1 := daily_reset fx_rates bar rs.sim
  -- 2.-4. settlement release, daily swaps, funding charges
  let fr := bar_accounts swap_rates fx_rates sim1.config bar sim1.account_state
  let funding_total' := rs.funding_total + fr.1
  let account4 := fr.2
  -- 5. open-price equity snapshot and equity floor
  let marks_open := account4.positions.map (fun p => (p.1, bar.open_))
  let snapshot_open := account4.to_portfolio_state marks_open bar.timestamp fx_rates
  let current_equity := snapshot_open.equity
  if current_equity ≤ 0 then
    .ok ({ rs with
        sim := { sim1 with account_state := account4 }
        funding_total := funding_total'
        equity_curve := rs.equity_curve ++ [(bar.timestamp, 0)]
        portfolio_states := rs.portfolio_states ++ [{ snapshot_open with equity := 0 }] },
      true)
  else
    -- 6./7. peak update and kill-switch re-evaluation
    let peak' := peak_update sim1.peak_equity current_equity
    let kill2 := kill_reeval sim1.config current_equity peak' sim1.daily_start_equity
      sim1.kill_switch_engaged
    match activate_orders min_delay bar_idx bar.timestamp rs.pending rs.active_orders with
    | .error e => .error e
    | .ok act =>
      let rs1 := { rs with
        sim := { sim1 with
          account_state := account4
          peak_equity := peak'
          kill_switch_engaged := kill2 }
        funding_total := funding_total'
        pending := act.1
        active_orders := act.2 }
      match order_loop fx_rates bar rs1.active_orders rs1 [] with
      | .error e => .error e
      | .ok ol =>
        let rs2 := ol.1
        let executed := ol.2
        -- remove executed
        let rs3 := { rs2 with
          active_orders := rs2.active_orders.filter (fun o => decide (o ∉ executed)) }
        match bracket_loop fx_rates bar rs3.sim.active_brackets
            { rs3 with sim := { rs3.sim with active_brackets := [] } } with
        | .error e => .error e
        | .ok rs4 =>
          -- DAY orders expire once they have been eligible and did not fill
          let active' :=
            if rs4.active_orders.isEmpty then rs4.active_orders
            else rs4.active_orders.filter (fun o =>
              !(decide (o.time_in_force = .day) && decide (o ∉ executed)))
          let marks_close := rs4.sim.account_state.positions.map (fun p => (p.1, bar.close))
          let portfolio :=
            rs4.sim.account_state.to_portfolio_state marks_close bar.timestamp fx_rates
          .ok ({ rs4 with
              active_orders := active'
              equity_curve := rs4.equity_curve ++ [(bar.timestamp, portfolio.equity)]
              portfolio_states := rs4.portfolio_states ++ [portfolio] },
            false)

/-- The bar loop of `Simulator.run`: process bars in order with their
indices, stopping early on an equity-floor halt, propagating the
look-ahead abort. -/
def run_bars (fx_rates swap_rates : Option (List (String × ℚ))) (min_delay : ℕ) :
    ℕ → List Bar → RunState → Except PyErr RunState
  | _, [], rs => .ok rs
  | bar_idx, bar :: rest, rs => do
    let r ← process_bar fx_rates swap_rates min_delay bar_idx bar rs
    if r.2 then .ok r.1
    else run_bars fx_rates swap_rates min_delay (bar_idx + 1) rest r.1

/-- `Simulator.run`: precompute each order's first-eligible bar index (the
first bar whose timestamp is at or past the order's, defaulting to 0),
stable-sort the pending queue by it, run the bar loop, and assemble the
result.  Returns the final simulator state alongside the result.
`next_order_id` seeds the fresh ids handed to bracket legs. -/
def Simulator.run (sim : Simulator) (orders : List OrderRequest) (bars : List Bar)
    (min_delay_bars : Option ℕ := none)
    (fx_rates : Option (List (String × ℚ)) := none)
    (swap_rates : Option (List (String × ℚ)) := none)
    (next_order_id : ℕ := 0) : Except PyErr (Simulator × SimulationResult) :=
  let min_delay := min_delay_bars.getD sim.config.min_order_delay_bars
  let origin_index : OrderRequest → ℕ := fun o =>
    (bars.findIdx? (fun b => decide (o.timestamp ≤ b.timestamp))).getD 0
  let pending := sort_pending (orders.map (fun o => (origin_index o, o)))
  let rs0 : RunState := { sim := sim, pending := pending, next_order_id := next_order_id }
  match run_bars fx_rates swap_rates min_delay 0 bars rs0 with
  | .error e => .error e
  | .ok rsF =>
    .ok (rsF.sim,
      { fills := rsF.fills
        portfolio_history := rsF.equity_curve.map (·.2)
        equity_curve := rsF.equity_curve
        portfolio_states := rsF.portfolio_states
        slippage_samples := rsF.slippage_samples
        funding_charged := rsF.funding_total
        rejected_orders := rsF.rejected_orders })

/-! ## Specification-side definitions

Declarative restatements of spec §4.6 (FIFO accounting), used to compare the
embedded `apply_fill` against the spec's wording, and the origination
predicate tying fills back to orders for the look-ahead invariant. -/

/-- Spec §4.6: the quantity consumed from each lot in insertion order — an
opposing lot gives up `min(remaining, |lot|)`, any other lot contributes
nothing. -/
def fifo_consumed (q : ℚ) (opposing : PositionLot → Bool) :
    List PositionLot → List ℚ
  | [] => []
  | lot :: rest =>
    if opposing lot then
      let c := min q |lot.quantity|
      c :: fifo_consumed (q - c) opposing rest
    else 0 :: fifo_consumed q opposing rest

/-- Spec §4.6: realized P&L of a close, `Σ_lot sign × (fill_price − entry) ×
consumed`, with `sign = +1` for a sell closing longs and `−1` for a buy
closing shorts. -/
def fifo_spec_realized (price sign : ℚ) (lots : List PositionLot)
    (consumed : List ℚ) : ℚ :=
  ((lots.zip consumed).map (fun p => sign * (price - p.1.entry_price) * p.2)).sum

/-- Spec §4.6: the lots after a close — fully consumed opposing lots are
removed, partially consumed ones keep their entry price with the reduced
quantity (`dir` is `+1` when consuming longs, `−1` when consuming shorts),
all other lots stay in place. -/
def fifo_spec_surviving (dir : ℚ) (opposing : PositionLot → Bool)
    (lots : List PositionLot) (consumed : List ℚ) : List PositionLot :=
  (lots.zip consumed).filterMap (fun p =>
    let q' := p.1.quantity - dir * p.2
    if opposing p.1 ∧ q' = 0 then none
    else some { p.1 with quantity := q' })

/-- Spec §4.6: which lots oppose the fill — longs for a sell
(`is_closing_long = true`), shorts for a buy. -/
def fifo_opposing (is_closing_long : Bool) : PositionLot → Bool := fun lot =>
  if is_closing_long then decide (0 < lot.quantity) else decide (lot.quantity < 0)

/-- `leg` is a contingent child order that `create_brackets` can generate
from `parent` (for some entry price and generated ids). -/
def is_bracket_leg_of (parent leg : OrderRequest) : Prop :=
  ∃ price sl_id tp_id,
    (create_brackets price parent sl_id tp_id).stop_loss = some leg ∨
    (create_brackets price parent sl_id tp_id).take_profit = some leg

/-- Fill `f` originates from order `o` in a run over `orders`: the ids match
and `o` is either an input order or a bracket leg of one. -/
def originates_from (orders : List OrderRequest) (f : Fill)
    (o : OrderRequest) : Prop :=
  f.client_order_id = o.client_order_id ∧
    (o ∈ orders ∨ ∃ parent ∈ orders, is_bracket_leg_of parent o)

/-! ## Concrete instances for witnesses and counterexamples -/

/-- A reference timestamp (day 0, 17:00 New York, a Monday). -/
def ts0 : Timestamp := ⟨0, 17 * 60, 0⟩

/-- Scenario S1 order: BUY LIMIT qty=1 limit=100. -/
def s1_order : OrderRequest :=
  { client_order_id := 1, symbol := "AAPL", side := .buy, order_type := .limit
    quantity := 1, limit_price := some 100, timestamp := ts0 }

/-- Scenario S1 bar: O=95, H=98, L=94, C=96. -/
def s1_bar : Bar :=
  { symbol := "AAPL", timestamp := ts0, open_ := 95, high := 98, low := 94
    close := 96, volume := 1000 }

/-- A limit buy whose limit price is exactly zero (falsy in Python). -/
def zero_limit_order : OrderRequest :=
  { client_order_id := 2, symbol := "AAPL", side := .buy, order_type := .limit
    quantity := 1, limit_price := some 0, timestamp := ts0 }

/-- A bar that reaches a zero limit price (L=0) while opening at 5. -/
def zero_limit_bar : Bar :=
  { symbol := "AAPL", timestamp := ts0, open_ := 5, high := 6, low := 0
    close := 1, volume := 10 }

/-- Scenario S3 bracket: entry BUY qty=1 with stop 95 / take-profit 110
generates a sell-stop and a sell-limit leg. -/
def s3_entry : OrderRequest :=
  { client_order_id := 3, symbol := "AAPL", side := .buy, order_type := .market
    quantity := 1, timestamp := ts0
    metadata := { stop_loss_price := some 95, take_profit_price := some 110
                  locate_available := false, locate_borrowed := false } }

/-- The S3 bracket as created at fill price 100. -/
def s3_bracket : BracketState := create_brackets 100 s3_entry 10 11

/-- A one-position portfolio: 1000 AAPL at 100, no cash (equity 100000). -/
def c7_portfolio : PortfolioState :=
  { cash := 0, unsettled_cash := 0
    positions := [("AAPL",
      { symbol := "AAPL", quantity := 1000, average_price := 100
        realized_pnl := 0, timestamp := ts0, current_price := 100 })]
    realized_pnl := 0, timestamp := ts0, equity := 100000 }

/-- A closing sell of 500 AAPL. -/
def c7_sell_order : OrderRequest :=
  { client_order_id := 4, symbol := "AAPL", side := .sell, order_type := .market
    quantity := 500, timestamp := ts0 }

/-- An account with one long position, for the swap-idempotence witness. -/
def c8_account : AccountState :=
  { cash := 1000, positions := [("EUR_USD", { lots := [⟨1000, 1, ts0⟩] })] }

/-- A second swap-applicable instant on the same calendar day as `ts0`. -/
def ts0_later : Timestamp := ⟨1/2, 18 * 60, 0⟩

/-- Two long lots (5 @ 10 and 5 @ 20) for the FIFO witness. -/
def c2_record : PositionRecord :=
  { lots := [⟨5, 10, ts0⟩, ⟨5, 20, ts0⟩], realized_pnl := 0 }

/-- A sell of 8 at 30 against `c2_record`. -/
def c2_fill : Fill :=
  { client_order_id := 6, symbol := "AAPL", side := .sell, quantity := 8
    price := 30, commission := 0, slippage := 0, realized_pnl := none
    timestamp := ts0, provider := "mock" }

/-- Scenario S4 fill: sell 100 shares at 110, no commission. -/
def s4_fill : Fill :=
  { client_order_id := 5, symbol := "AAPL", side := .sell, quantity := 100
    price := 110, commission := 0, slippage := 0, realized_pnl := none
    timestamp := ts0, provider := "mock" }

/-- Scenario S4 account: empty, zero cash. -/
def s4_account : AccountState := { cash := 0 }

/-- A minimal well-formed decoded checkpoint dict (schema 1). -/
def c9_dict : CheckpointDict :=
  { schema_version := some 1, backtest_id := "bt-1", config_hash := "hash123"
    provider_config := {}, simulator_config := {}
    account_state := { cash := 0 }, current_day := none
    peak_equity := 0, daily_start_equity := 0, kill_switch_engaged := false
    active_brackets := [], random_state := [3, 42, 0] }

/-- A checkpoint file starting with the legacy pickle magic byte. -/
def c9_pickle_file : CheckpointFile :=
  { bytes := [0x80, 0x04, 0x95], decoded := none }

/-- A checkpoint file that fails to decode (no pickle magic). -/
def c9_bad_file : CheckpointFile :=
  { bytes := [0x81, 0x00], decoded := none }

/-- A checkpoint file decoding to a non-dict value. -/
def c9_nondict_file : CheckpointFile :=
  { bytes := [0x91], decoded := some (.other "list") }

/-- A checkpoint file with a schema version newer than supported. -/
def c9_newschema_file : CheckpointFile :=
  { bytes := [0x81]
    decoded := some (.dict { c9_dict with schema_version := some 2 }) }

/-- A well-formed checkpoint file (hash "hash123"). -/
def c9_good_file : CheckpointFile :=
  { bytes := [0x81], decoded := some (.dict c9_dict) }

/-- The exception class produced by loading a file, if any. -/
def load_error_kind (file : CheckpointFile) (expected : Option String) :
    Option PyExcKind :=
  match SimulationCheckpoint.load file expected with
  | .error e => some (e.kind)
  | .ok _ => none

/-- The four risk-cap gates of the per-order pipeline, in pipeline order, on
the snapshot the event loop computes for the order. -/
def order_risk_caps_pass (fx_rates : Option (List (String × ℚ))) (bar : Bar)
    (rs : RunState) : Bool :=
  let snapshot := rs.sim.account_state.to_portfolio_state
    (rs.sim.account_state.positions.map (fun p => (p.1, bar.open_)))
    bar.timestamp fx_rates
  let net_exposure := (snapshot.positions.map (fun p => |p.2.market_value|)).sum
  enforce_net_position_cap net_exposure snapshot.equity
      rs.sim.config.risk_caps.net_position_cap_pct &&
    enforce_equity_floor snapshot.equity rs.sim.config.risk_caps.equity_floor_pct
      rs.sim.starting_equity &&
    enforce_frequency_cap rs.sim.trades_today
      rs.sim.config.risk_caps.frequency_cap_per_day &&
    enforce_pyramiding_limit 1 rs.sim.config.risk_caps.pyramiding_layers

/-- Order `o` can participate in the current bar: it is already active, or
still pending and timestamped at or before the bar. -/
def order_reaches (rs : RunState) (bar : Bar) (o : OrderRequest) : Prop :=
  o ∈ rs.active_orders ∨ ((∃ i, (i, o) ∈ rs.pending) ∧ o.timestamp ≤ bar.timestamp)

/-- Provenance of a fill produced while processing one bar: it is stamped
with the bar's timestamp and carries the id of a participating order, of a
leg of an already-active bracket, or of a leg of a bracket created this bar
for a participating parent. -/
def fill_source (rs : RunState) (bar : Bar) (f : Fill) : Prop :=
  ∃ o, f.client_order_id = o.client_order_id ∧ f.timestamp = bar.timestamp ∧
    (order_reaches rs bar o ∨
     (∃ br ∈ rs.sim.active_brackets, br.stop_loss = some o ∨ br.take_profit = some o) ∨
     (∃ parent, order_reaches rs bar parent ∧ is_bracket_leg_of parent o))

/-- The run-loop invariant at time bound `τ`: pending and active orders come
from the inputs, active orders and bracket parents are timestamped at or
before `τ`, every fill so far originates from an input order no later than
itself, and every rejection records an input order. -/
def run_inv (orders : List OrderRequest) (τ : ℚ) (rs : RunState) : Prop :=
  (∀ p ∈ rs.pending, p.2 ∈ orders) ∧
  (∀ o ∈ rs.active_orders, o ∈ orders ∧ o.timestamp.time ≤ τ) ∧
  (∀ br ∈ rs.sim.active_brackets, ∃ parent ∈ orders,
    parent.timestamp.time ≤ τ ∧ ∃ price i j, br = create_brackets price parent i j) ∧
  (∀ f ∈ rs.fills, ∃ o, originates_from orders f o ∧ o.timestamp ≤ f.timestamp) ∧
  (∀ r ∈ rs.rejected_orders, r.order ∈ orders)

/-- The run state with the kill-switch flag forced. -/
def with_kill (rs : RunState) (b : Bool) : RunState :=
  { rs with sim := { rs.sim with kill_switch_engaged := b } }

/-- A run state with the kill-switch engaged, a (valid) per-day frequency
cap of one trade, and one trade already executed today: the cap — checked
before the kill-switch gate — rejects the next order. -/
def c3_rs : RunState :=
  { sim := { provider_config := {}, kill_switch_engaged := true
             trades_today := 1
             config := { risk_caps := { frequency_cap_per_day := some 1 } } } }

/-- A run state with the kill-switch engaged and no risk caps configured
(the four cap gates all pass). -/
def c3_clean : RunState :=
  { sim := { provider_config := {}, kill_switch_engaged := true } }

/-- A market buy submitted while the kill-switch is engaged. -/
def c3_order : OrderRequest :=
  { client_order_id := 5, symbol := "AAPL", side := .buy, order_type := .market
    quantity := 1, timestamp := ts0 }

/-- A simulator with no active brackets for an empty-bar run. -/
def c6_sim : Simulator := { provider_config := {} }

/-- An input order for the empty-bar run. -/
def c6_order : OrderRequest :=
  { client_order_id := 6, symbol := "AAPL", side := .buy, order_type := .market
    quantity := 1, timestamp := ts0 }

/-- The empty result of a bar-less run. -/
def c6_result : SimulationResult :=
  { fills := [], portfolio_history := [], equity_curve := []
    portfolio_states := [], slippage_samples := []
    funding_charged := 0, rejected_orders := [] }

/-- A bar on which the S3 bracket triggers neither leg
(stop 95 < low 98, high 105 < take-profit 110). -/
def c10_bar : Bar :=
  { symbol := "AAPL", timestamp := ts0, open_ := 100, high := 105, low := 98
    close := 101, volume := 10 }

/-- A plain run state (kill-switch off, no brackets). -/
def c10_rs : RunState := { sim := { provider_config := {} } }


/-- **C1** (amended): for every limit buy order with a non-zero limit price,
`match_order` fills iff `bar.low ≤ limit`, at `min(bar.open, limit)`. -/
theorem limit_buy_fill_rule (order : OrderRequest) (bar : Bar)
    (slippage commission : ℚ) (provider : String) (L : ℚ)
    (htype : order.order_type = .limit) (hside : order.side = .buy)
    (hlim : order.limit_price = some L) (hL : L ≠ 0) :
    match_order order bar slippage commission provider none =
      .ok (if bar.low ≤ L then
        some (mk_fill order (min bar.open_ L) slippage commission provider bar.timestamp)
      else none) := by
  unfold match_order match_effective
  rw [htype, hside, hlim]
  simp only [py_or, if_neg hL, Option.getD_none]
  by_cases h1 : bar.low ≤ L
  · rw [if_pos h1, if_pos h1]
    by_cases h2 : bar.open_ < L
    · rw [if_pos h2]
    · rw [if_neg h2, min_eq_right (le_of_not_lt h2)]
  · rw [if_neg h1, if_neg h1]

/-- Witness for C1 at scenario S1 (gap-down limit buy fills at the open 95). -/
theorem limit_buy_fill_rule_witness :
    match_order s1_order s1_bar 0 0 "mock" none =
      .ok (some (mk_fill s1_order 95 0 0 "mock" ts0)) ∧ (95 : ℚ) = min s1_bar.open_ 100 := by
  constructor
  · have h := limit_buy_fill_rule s1_order s1_bar 0 0 "mock" 100 rfl rfl rfl (by norm_num)
    rw [show s1_bar.low = 94 from rfl, if_pos (by norm_num : (94:ℚ) ≤ 100)] at h
    rw [show s1_bar.open_ = 95 from rfl] at h
    rw [show min (95:ℚ) 100 = 95 from by norm_num] at h
    exact h
  · norm_num [s1_bar]

/-- Counterexample to C1 as stated: with limit price 0 (falsy in Python) the
matcher fills at the open (5) instead of `min(open, limit) = 0`. -/
theorem limit_buy_fill_rule_cex :
    zero_limit_bar.low ≤ (zero_limit_order.limit_price).getD 0 ∧
    match_order zero_limit_order zero_limit_bar 0 0 "mock" none =
      .ok (some (mk_fill zero_limit_order 5 0 0 "mock" ts0)) ∧
    (5 : ℚ) ≠ min zero_limit_bar.open_ ((zero_limit_order.limit_price).getD 0) := by
  refine ⟨by norm_num [zero_limit_bar, zero_limit_order], by rfl, by norm_num [zero_limit_bar, zero_limit_order]⟩

/-- **C4**: for every active bracket and bar where both the stop-loss leg and
the take-profit leg could trigger (stop: high ≥ stop for a buy-stop or low ≤
stop for a sell-stop; take-profit: high ≥ limit for a sell-limit or low ≤
limit for a buy-limit), `process_brackets` selects the stop-loss leg and the
take-profit leg is discarded. -/
theorem process_brackets_adverse (bracket : BracketState) (bar_high bar_low : ℚ)
    (sl tp : OrderRequest) (sp lp : ℚ)
    (hsl : bracket.stop_loss = some sl) (htp : bracket.take_profit = some tp)
    (hsp : sl.stop_price = some sp) (hlp : tp.limit_price = some lp)
    (hslTrig : (sl.side = .buy ∧ sp ≤ bar_high) ∨ (sl.side = .sell ∧ bar_low ≤ sp))
    (htpTrig : (tp.side = .sell ∧ lp ≤ bar_high) ∨ (tp.side = .buy ∧ bar_low ≤ lp)) :
    process_brackets bracket bar_high bar_low = .ok (some sl, none) := by
  rcases hslTrig with ⟨hside, hcmp⟩ | ⟨hside, hcmp⟩ <;>
    rcases htpTrig with ⟨hside2, hcmp2⟩ | ⟨hside2, hcmp2⟩ <;>
    simp [process_brackets, hsl, htp, hsp, hlp, hside, hside2, hcmp, hcmp2, pure, Except.pure, Bind.bind, Except.bind]

/-- Witness for C4 at scenario S3: stop 95 / take-profit 110, bar H=115 L=90
reaches both; the sell-stop leg is selected. -/
theorem process_brackets_adverse_witness :
    process_brackets s3_bracket 115 90 = .ok (s3_bracket.stop_loss, none) :=
  process_brackets_adverse s3_bracket 115 90
    { client_order_id := 10, symbol := "AAPL", side := .sell, order_type := .stop
      quantity := 1, stop_price := some 95, time_in_force := .gtc, timestamp := ts0 }
    { client_order_id := 11, symbol := "AAPL", side := .sell, order_type := .limit
      quantity := 1, limit_price := some 110, time_in_force := .gtc, timestamp := ts0 }
    95 110 rfl rfl rfl rfl (Or.inr ⟨rfl, by norm_num⟩) (Or.inl ⟨rfl, by norm_num⟩)

/-- **C7**: for every order (buy or sell) and portfolio snapshot with
positive equity, the gross-leverage check rejects iff the sum of absolute
existing position market values plus `order_qty × mark` exceeds
`max_gross_leverage × equity`; the order value is added for both sides. -/
theorem gross_leverage_rule (order : OrderRequest) (portfolio : PortfolioState)
    (mark_price max_gross_leverage : ℚ) (heq : 0 < portfolio.equity) :
    (∃ msg, check_gross_leverage order portfolio mark_price max_gross_leverage =
        .error msg) ↔
      max_gross_leverage * portfolio.equity <
        (portfolio.positions.map (fun p => |p.2.market_value|)).sum +
          order.quantity * mark_price := by
  have hneg : ¬ portfolio.equity ≤ 0 := not_le.mpr heq
  cases ho : order.side <;>
    by_cases hc : max_gross_leverage * portfolio.equity <
        (portfolio.positions.map (fun p => |p.2.market_value|)).sum +
          order.quantity * mark_price <;>
    simp [check_gross_leverage, hneg, ho, hc]

/-- Witness for C7: a closing sell of 500 AAPL on a fully invested 100000
portfolio is rejected at 1.0x gross leverage but passes at 2.0x. -/
theorem gross_leverage_rule_witness :
    (0 : ℚ) < c7_portfolio.equity ∧
    (∃ msg, check_gross_leverage c7_sell_order c7_portfolio 100 1 = .error msg) ∧
    ¬ (∃ msg, check_gross_leverage c7_sell_order c7_portfolio 100 2 = .error msg) := by
  refine ⟨by norm_num [c7_portfolio], ?_, ?_⟩
  · exact (gross_leverage_rule c7_sell_order c7_portfolio 100 1
      (by norm_num [c7_portfolio])).mpr
      (by norm_num [c7_portfolio, c7_sell_order, Position.market_value])
  · intro h
    exact absurd ((gross_leverage_rule c7_sell_order c7_portfolio 100 2
      (by norm_num [c7_portfolio])).mp h)
      (by norm_num [c7_portfolio, c7_sell_order, Position.market_value])

/-- **C8**: `apply_daily_swap` is idempotent per calendar day — for any two
swap-applicable timestamps on the same calendar date (and any rate/mark/FX
tables for the second call), applying the swap at the first and then at the
second leaves the account exactly as after the first application alone. -/
theorem apply_daily_swap_idempotent (st : AccountState) (t1 t2 : Timestamp)
    (r1 m1 r2 m2 : List (String × ℚ)) (f1 f2 : Option (List (String × ℚ)))
    (h1 : swap_applicable t1 = true) (h2 : swap_applicable t2 = true)
    (hd : t1.date = t2.date) :
    (st.apply_daily_swap t1 r1 m1 f1).apply_daily_swap t2 r2 m2 f2 =
      st.apply_daily_swap t1 r1 m1 f1 := by
  have hlast : ∃ last, (st.apply_daily_swap t1 r1 m1 f1).last_swap_time = some last ∧
      last.date = t1.date := by
    unfold AccountState.apply_daily_swap
    rw [h1]
    simp only [Bool.not_true, Bool.false_eq_true, if_false]
    split
    case isTrue hguard =>
      cases hst : st.last_swap_time with
      | none => simp [hst] at hguard
      | some last =>
        simp only [hst] at hguard
        refine ⟨last, ?_, of_decide_eq_true hguard⟩
        simp [hst]
    case isFalse hguard => exact ⟨t1, rfl, rfl⟩
  obtain ⟨last, hl, hld⟩ := hlast
  set A := st.apply_daily_swap t1 r1 m1 f1 with hA
  unfold AccountState.apply_daily_swap
  rw [h2, hl]
  have hdd : last.date = t2.date := hld.trans hd
  simp [hdd]

/-- Witness for C8: a long EUR_USD account swapped twice within one day keeps
the state of the first swap. -/
theorem apply_daily_swap_idempotent_witness :
    (c8_account.apply_daily_swap ts0 [("EUR_USD", 1/100)] [("EUR_USD", 2)]
        none).apply_daily_swap ts0_later [("EUR_USD", 5/100)] [("EUR_USD", 3)] none =
      c8_account.apply_daily_swap ts0 [("EUR_USD", 1/100)] [("EUR_USD", 2)] none :=
  apply_daily_swap_idempotent c8_account ts0 ts0_later _ _ _ _ none none
    (by norm_num [swap_applicable, ts0]) (by norm_num [swap_applicable, ts0_later])
    (by norm_num [Timestamp.date, ts0, ts0_later])

/-- **C9** (amended): checkpoint loading hard-fails in all four cases —
legacy pickle magic, decode failure, and a newer stored schema version all
raise `CheckpointFormatError` (with cause-specific messages), while a
non-matching caller-supplied config hash raises `ValueError`; the causes are
distinguished by message, not by a distinct exception kind each. -/
theorem checkpoint_load_rejects (f1 f2 f3 f4 : CheckpointFile)
    (d3 d4 : CheckpointDict) (eh : Option String) (expected : String)
    (hp : f1.bytes.take 1 = [0x80])
    (hd_magic : ¬(f2.bytes.take 2 = [0x80, 0x04] ∨ f2.bytes.take 1 = [0x80]))
    (hdec : f2.decoded = none)
    (hs_magic : ¬(f3.bytes.take 2 = [0x80, 0x04] ∨ f3.bytes.take 1 = [0x80]))
    (hs_dec : f3.decoded = some (.dict d3))
    (hs_ver : CHECKPOINT_SCHEMA_VERSION < d3.schema_version.getD 0)
    (hh_magic : ¬(f4.bytes.take 2 = [0x80, 0x04] ∨ f4.bytes.take 1 = [0x80]))
    (hh_dec : f4.decoded = some (.dict d4))
    (hh_ver : ¬ CHECKPOINT_SCHEMA_VERSION < d4.schema_version.getD 0)
    (hh_hash : d4.config_hash ≠ expected) :
    SimulationCheckpoint.load f1 eh =
        .error (.checkpointFormatError .legacyPickleFormat) ∧
    SimulationCheckpoint.load f2 eh =
        .error (.checkpointFormatError .failedToDecode) ∧
    SimulationCheckpoint.load f3 eh =
        .error (.checkpointFormatError
          (.schemaVersionNewer (d3.schema_version.getD 0) CHECKPOINT_SCHEMA_VERSION)) ∧
    SimulationCheckpoint.load f4 (some expected) =
        .error (.valueError (.configHashMismatch d4.config_hash expected)) := by
  refine ⟨?_, ?_, ?_, ?_⟩
  · unfold SimulationCheckpoint.load
    rw [if_pos (Or.inr hp)]
  · unfold SimulationCheckpoint.load
    rw [if_neg hd_magic, hdec]
  · unfold SimulationCheckpoint.load
    rw [if_neg hs_magic, hs_dec]
    simp only [if_pos hs_ver]
  · unfold SimulationCheckpoint.load
    rw [if_neg hh_magic, hh_dec]
    simp only [if_neg hh_ver]
    simp [dict_to_checkpoint, hh_hash]

/-- Witness for C9 at concrete files for each of the four causes. -/
theorem checkpoint_load_rejects_witness :
    SimulationCheckpoint.load c9_pickle_file none =
        .error (.checkpointFormatError .legacyPickleFormat) ∧
    SimulationCheckpoint.load c9_bad_file none =
        .error (.checkpointFormatError .failedToDecode) ∧
    SimulationCheckpoint.load c9_newschema_file none =
        .error (.checkpointFormatError (.schemaVersionNewer 2 1)) ∧
    SimulationCheckpoint.load c9_good_file (some "other") =
        .error (.valueError (.configHashMismatch "hash123" "other")) :=
  checkpoint_load_rejects c9_pickle_file c9_bad_file c9_newschema_file c9_good_file
    { c9_dict with schema_version := some 2 } c9_dict none "other"
    rfl (by decide) rfl (by decide) rfl (by decide) (by decide) rfl (by decide)
    (by decide)

/-- Counterexample to C9 as stated: two different causes (legacy pickle
magic and a newer schema version) raise errors of the same exception kind,
so the kinds are not pairwise distinct per cause. -/
theorem checkpoint_load_kind_cex :
    load_error_kind c9_pickle_file none = some .checkpointFormatError ∧
    load_error_kind c9_newschema_file none = some .checkpointFormatError ∧
    load_error_kind c9_good_file (some "other") = some .valueError :=
  ⟨rfl, rfl, rfl⟩

/-- The settlement-release loop: folding the queue from `(cash, unsettled,
[])` releases exactly the due entries and keeps the rest in order. -/
theorem settle_foldl (t : Timestamp) (q : List SettlementEntry) :
    ∀ (c u : ℚ) (rem : List SettlementEntry),
      q.foldl (fun (acc : ℚ × ℚ × List SettlementEntry) entry =>
        if entry.release_time ≤ t then
          (acc.1 + entry.amount, acc.2.1 - entry.amount, acc.2.2)
        else (acc.1, acc.2.1, acc.2.2 ++ [entry])) (c, u, rem) =
      (c + ((q.filter (fun e => decide (e.release_time ≤ t))).map (·.amount)).sum,
       u - ((q.filter (fun e => decide (e.release_time ≤ t))).map (·.amount)).sum,
       rem ++ q.filter (fun e => decide (¬ e.release_time ≤ t))) := by
  induction q with
  | nil => intro c u rem; simp
  | cons e rest ih =>
    intro c u rem
    by_cases he : e.release_time ≤ t
    · simp only [List.foldl_cons, if_pos he, ih, List.filter_cons, he,
        decide_not, Bool.not_true, List.map_cons, List.sum_cons]
      refine Prod.ext ?_ (Prod.ext ?_ ?_) <;> simp <;> ring
    · simp only [List.foldl_cons, if_neg he, ih, List.filter_cons, he,
        decide_not, Bool.not_false, List.map_cons, List.sum_cons]
      refine Prod.ext ?_ (Prod.ext ?_ ?_) <;> simp [List.append_assoc]

/-- **C5**: a sell fill with positive settlement days (no borrow accrual, no
FX) appends `SettlementEntry(notional − commission, fill_ts + days)` to the
queue and adds the proceeds to unsettled cash while leaving cash untouched;
and `process_settlement t` moves exactly the entries due at `t` into cash,
decrementing unsettled cash, so every surviving entry is strictly future. -/
theorem settlement_rule :
    (∀ (st : AccountState) (fill : Fill) (d : ℕ), fill.side = .sell → 0 < d →
      ((st.apply_fill fill d none none).2.cash = st.cash ∧
       (st.apply_fill fill d none none).2.unsettled_cash =
         st.unsettled_cash + (fill.price * fill.quantity - fill.commission) ∧
       (st.apply_fill fill d none none).2.settlement_queue =
         st.settlement_queue ++
           [{ amount := fill.price * fill.quantity - fill.commission
              release_time := fill.timestamp.addDays d }])) ∧
    (∀ (st : AccountState) (t : Timestamp),
      (st.process_settlement t).cash = st.cash +
        ((st.settlement_queue.filter
          (fun e => decide (e.release_time ≤ t))).map (·.amount)).sum ∧
      (st.process_settlement t).unsettled_cash = st.unsettled_cash -
        ((st.settlement_queue.filter
          (fun e => decide (e.release_time ≤ t))).map (·.amount)).sum ∧
      (st.process_settlement t).settlement_queue =
        st.settlement_queue.filter (fun e => decide (¬ e.release_time ≤ t)) ∧
      ∀ e ∈ (st.process_settlement t).settlement_queue, t < e.release_time) := by
  constructor
  · intro st fill d hside hd
    refine ⟨?_, ?_, ?_⟩ <;>
      simp [AccountState.apply_fill, hside, hd, convert_or,
        py_dict_truthy, py_truthy]
  · intro st t
    have h := settle_foldl t st.settlement_queue st.cash st.unsettled_cash []
    refine ⟨?_, ?_, ?_, ?_⟩
    · simp [AccountState.process_settlement, h]
    · simp [AccountState.process_settlement, h]
    · simp [AccountState.process_settlement, h]
    · intro e he
      simp only [AccountState.process_settlement, h, List.nil_append] at he
      rw [List.mem_filter] at he
      have hn : ¬ e.release_time.time ≤ t.time := of_decide_eq_true he.2
      exact lt_of_not_le hn

/-- Unfolding lemma: `datetime` comparison is comparison of instants. -/
theorem Timestamp.le_def (a b : Timestamp) : (a ≤ b) = (a.time ≤ b.time) := rfl

/-- Witness for C5 at scenario S4: sell 100 × 110 with 2-day settlement on a
zero-cash account: immediately cash 0 / unsettled 11000; two days later the
cash is 11000 and the queue is empty. -/
theorem settlement_rule_witness :
    (s4_account.apply_fill s4_fill 2 none none).2.cash = 0 ∧
    (s4_account.apply_fill s4_fill 2 none none).2.unsettled_cash = 11000 ∧
    ((s4_account.apply_fill s4_fill 2 none none).2.process_settlement
        (ts0.addDays 2)).cash = 11000 ∧
    ((s4_account.apply_fill s4_fill 2 none none).2.process_settlement
        (ts0.addDays 2)).settlement_queue = [] := by
  obtain ⟨h1, h2⟩ := settlement_rule
  obtain ⟨hc, hu, hq⟩ := h1 s4_account s4_fill 2 rfl (by norm_num)
  have hb := h2 (s4_account.apply_fill s4_fill 2 none none).2 (ts0.addDays 2)
  refine ⟨by rw [hc]; rfl, ?_, ?_, ?_⟩
  · rw [hu]; norm_num [s4_account, s4_fill]
  · rw [hb.1, hq, hc]
    norm_num [s4_account, s4_fill, List.filter, Timestamp.le_def, Timestamp.addDays, ts0]
  · rw [hb.2.2.1, hq]
    norm_num [s4_account, s4_fill, List.filter, Timestamp.le_def, Timestamp.addDays, ts0]

/-- Consuming a zero quantity leaves the lots untouched. -/
theorem consume_lots_zero (price : ℚ) (b : Bool) (lots : List PositionLot) :
    consume_lots 0 price b lots = (0, 0, lots) := by
  cases lots with
  | nil => simp [consume_lots]
  | cons l ls => simp [consume_lots]

/-- The spec-side close of a zero quantity consumes nothing and keeps every
lot. -/
theorem fifo_zero (price : ℚ) (b : Bool) (lots : List PositionLot) :
    (fifo_consumed 0 (fifo_opposing b) lots).sum = 0 ∧
    fifo_spec_realized price (if b = true then 1 else -1) lots
      (fifo_consumed 0 (fifo_opposing b) lots) = 0 ∧
    fifo_spec_surviving (if b = true then 1 else -1) (fifo_opposing b) lots
      (fifo_consumed 0 (fifo_opposing b) lots) = lots := by
  induction lots with
  | nil => simp [fifo_consumed, fifo_spec_realized, fifo_spec_surviving]
  | cons l ls ih =>
    obtain ⟨ihs, ihr, ihv⟩ := ih
    have hmin : min (0 : ℚ) |l.quantity| = 0 := min_eq_left (abs_nonneg _)
    by_cases ho : fifo_opposing b l = true
    · have hne : l.quantity ≠ 0 := by
        cases b <;> simp [fifo_opposing] at ho <;>
          first
            | exact ne_of_lt ho
            | exact ne_of_gt ho
      refine ⟨?_, ?_, ?_⟩
      · simp [fifo_consumed, ho, hmin, ihs]
      · simp [fifo_consumed, fifo_spec_realized, ho, hmin] at ihr ⊢
        simpa using ihr
      · simp [fifo_consumed, fifo_spec_surviving, ho, hmin, hne] at ihv ⊢
        simpa using ihv
    · refine ⟨?_, ?_, ?_⟩
      · simp [fifo_consumed, ho, ihs]
      · simp [fifo_consumed, fifo_spec_realized, ho] at ihr ⊢
        simpa using ihr
      · simp [fifo_consumed, fifo_spec_surviving, ho] at ihv ⊢
        simpa using ihv

/-- The FIFO consume loop agrees with the spec-side description: remaining
quantity, realized P&L and surviving lots are the declarative ones. -/
theorem consume_lots_eq_spec (price : ℚ) (b : Bool) (lots : List PositionLot) :
    ∀ (q : ℚ), 0 ≤ q →
      consume_lots q price b lots =
        (q - (fifo_consumed q (fifo_opposing b) lots).sum,
         fifo_spec_realized price (if b = true then 1 else -1) lots
           (fifo_consumed q (fifo_opposing b) lots),
         fifo_spec_surviving (if b = true then 1 else -1) (fifo_opposing b) lots
           (fifo_consumed q (fifo_opposing b) lots)) := by
  induction lots with
  | nil =>
    intro q hq
    simp [consume_lots, fifo_consumed, fifo_spec_realized, fifo_spec_surviving]
  | cons lot rest ih =>
    intro q hq
    rcases eq_or_lt_of_le hq with hq0 | hqpos
    · rw [← hq0]
      obtain ⟨hs0, hr0, hv0⟩ := fifo_zero price b (lot :: rest)
      rw [consume_lots_zero, hs0, hr0, hv0]
      norm_num
    · have hnle : ¬ q ≤ 0 := not_le.mpr hqpos
      have hc_le : min q |lot.quantity| ≤ q := min_le_left _ _
      have hr := ih (q - min q |lot.quantity|) (sub_nonneg.mpr hc_le)
      have hrq := ih q hq
      cases b with
      | true =>
        by_cases ho : (0 : ℚ) < lot.quantity
        · have hoo : fifo_opposing true lot = true := by simp [fifo_opposing, ho]
          by_cases hz : lot.quantity - min q |lot.quantity| = 0
          · simp [consume_lots, fifo_consumed, fifo_spec_realized,
              fifo_spec_surviving, hr, hoo, hnle, ho.not_le, hz, Prod.mk.injEq]
            ring
          · simp [consume_lots, fifo_consumed, fifo_spec_realized,
              fifo_spec_surviving, hr, hoo, hnle, ho.not_le, hz, Prod.mk.injEq]
            ring
        · have hoo : fifo_opposing true lot = false := by
            simp [fifo_opposing]; exact not_lt.mp ho
          simp [consume_lots, fifo_consumed, fifo_spec_realized,
            fifo_spec_surviving, hrq, hoo, hnle, not_lt.mp ho, Prod.mk.injEq]
      | false =>
        by_cases ho : lot.quantity < 0
        · have hoo : fifo_opposing false lot = true := by simp [fifo_opposing, ho]
          by_cases hz : lot.quantity + min q |lot.quantity| = 0
          · have hz' : lot.quantity - -1 * (min q |lot.quantity|) = 0 := by
              rw [neg_one_mul, sub_neg_eq_add]; exact hz
            simp [consume_lots, fifo_consumed, fifo_spec_realized,
              fifo_spec_surviving, hr, hoo, hnle, ho.not_le, hz, hz', Prod.mk.injEq]
            ring
          · have hz' : ¬ (lot.quantity - -1 * (min q |lot.quantity|) = 0) := by
              rw [neg_one_mul, sub_neg_eq_add]; exact hz
            simp [consume_lots, fifo_consumed, fifo_spec_realized,
              fifo_spec_surviving, hr, hoo, hnle, ho.not_le, hz, hz', Prod.mk.injEq]
            ring
        · have hoo : fifo_opposing false lot = false := by
            simp [fifo_opposing]; exact not_lt.mp ho
          simp [consume_lots, fifo_consumed, fifo_spec_realized,
            fifo_spec_surviving, hrq, hoo, hnle, not_lt.mp ho, Prod.mk.injEq]

/-- **C2**: a fill consumes opposing-signed lots in insertion order, each
consumed portion realizing `(fill_price − entry) × closed_qty` for a sell
closing longs (negated for a buy closing shorts); fully consumed lots are
removed, partially consumed lots keep their entry price with reduced
quantity, residual quantity appends one lot at the fill price, and the
returned realized P&L is also accumulated on the record. -/
theorem apply_fill_fifo (record : PositionRecord) (fill : Fill)
    (hq : 0 ≤ fill.quantity) :
    (record.apply_fill fill).1 =
      fifo_spec_realized fill.price (if fill.side = .sell then 1 else -1)
        record.lots
        (fifo_consumed fill.quantity (fifo_opposing (decide (fill.side = .sell)))
          record.lots) ∧
    (record.apply_fill fill).2.realized_pnl =
      record.realized_pnl + (record.apply_fill fill).1 ∧
    (record.apply_fill fill).2.lots =
      fifo_spec_surviving (if fill.side = .sell then 1 else -1)
        (fifo_opposing (decide (fill.side = .sell))) record.lots
        (fifo_consumed fill.quantity (fifo_opposing (decide (fill.side = .sell)))
          record.lots) ++
      (if 0 < fill.quantity -
          (fifo_consumed fill.quantity (fifo_opposing (decide (fill.side = .sell)))
            record.lots).sum then
        [{ quantity := (if fill.side = .sell then -1 else 1) *
              (fill.quantity - (fifo_consumed fill.quantity
                (fifo_opposing (decide (fill.side = .sell))) record.lots).sum)
           entry_price := fill.price, entry_time := fill.timestamp }]
       else []) := by
  cases hs : fill.side with
  | sell =>
    have h := consume_lots_eq_spec fill.price true record.lots fill.quantity hq
    by_cases hres : 0 < fill.quantity -
        (fifo_consumed fill.quantity (fifo_opposing true) record.lots).sum
    · simp [PositionRecord.apply_fill, hs, h, hres, neg_one_mul]
    · simp [PositionRecord.apply_fill, hs, h, hres, neg_one_mul]
  | buy =>
    have h := consume_lots_eq_spec fill.price false record.lots fill.quantity hq
    by_cases hres : 0 < fill.quantity -
        (fifo_consumed fill.quantity (fifo_opposing false) record.lots).sum
    · simp [PositionRecord.apply_fill, hs, h, hres, one_mul]
    · simp [PositionRecord.apply_fill, hs, h, hres, one_mul]

/-- Witness for C2: selling 8 at 30 against lots [5 @ 10, 5 @ 20] realizes
(30−10)×5 + (30−20)×3 = 130, accumulates it, and leaves one reduced lot. -/
theorem apply_fill_fifo_witness :
    (c2_record.apply_fill c2_fill).1 = 130 ∧
    (c2_record.apply_fill c2_fill).2.realized_pnl = 130 ∧
    (c2_record.apply_fill c2_fill).2.lots = [⟨2, 20, ts0⟩] := by
  have h := apply_fill_fifo c2_record c2_fill (by norm_num [c2_fill])
  refine ⟨?_, ?_, ?_⟩
  · rw [h.1]
    norm_num [fifo_spec_realized, fifo_consumed, fifo_opposing, c2_record, c2_fill]
  · rw [h.2.1, h.1]
    norm_num [fifo_spec_realized, fifo_consumed, fifo_opposing, c2_record, c2_fill]
  · rw [h.2.2]
    norm_num [fifo_spec_surviving, fifo_consumed, fifo_opposing, c2_record, c2_fill,
      List.filterMap_cons]

/-- Any fill built by `match_order` with an explicit timestamp carries the
order's id and that timestamp. -/
theorem match_order_fill_fields (order : OrderRequest) (bar : Bar)
    (s c : ℚ) (p : String) (t : Timestamp) (f : Fill)
    (h : match_order order bar s c p (some t) = .ok (some f)) :
    f.client_order_id = order.client_order_id ∧ f.timestamp = t := by
  unfold match_order match_effective at h
  repeat' split at h
  all_goals simp_all [mk_fill]
  all_goals (obtain ⟨rfl⟩ := h; exact ⟨rfl, rfl⟩)

/-- Legs generated by `create_brackets` inherit the parent's timestamp. -/
theorem create_brackets_leg_timestamp (price : ℚ) (parent : OrderRequest)
    (i j : ℕ) (leg : OrderRequest)
    (h : (create_brackets price parent i j).stop_loss = some leg ∨
         (create_brackets price parent i j).take_profit = some leg) :
    leg.timestamp = parent.timestamp := by
  unfold create_brackets at h
  rcases h with h | h <;>
    [cases hm : parent.metadata.stop_loss_price;
     cases hm : parent.metadata.take_profit_price] <;>
    simp_all <;> subst h <;> rfl

/-- A triggering leg returned by `process_brackets` is one of the bracket's
two legs. -/
theorem process_brackets_trigger_src (br : BracketState) (h l : ℚ)
    (trig : OrderRequest) (snd : Option OrderRequest)
    (hp : process_brackets br h l = .ok (some trig, snd)) :
    br.stop_loss = some trig ∨ br.take_profit = some trig := by
  unfold process_brackets at hp
  repeat' split at hp
  all_goals simp_all [pure, Except.pure, Bind.bind, Except.bind]
  all_goals (repeat' split at hp) <;> simp_all

/-- Successful activation pops a subset of the pending queue onto the active
list, and every newly activated order passed the look-ahead gate. -/
theorem activate_orders_ok (md idx : ℕ) (bts : Timestamp) :
    ∀ (pending : List (ℕ × OrderRequest)) (active : List OrderRequest)
      (pending' : List (ℕ × OrderRequest)) (active' : List OrderRequest),
      activate_orders md idx bts pending active = .ok (pending', active') →
      (∀ p ∈ pending', p ∈ pending) ∧
      (∀ o ∈ active', o ∈ active ∨
        ((∃ i, (i, o) ∈ pending) ∧ o.timestamp ≤ bts)) := by
  intro pending
  induction pending with
  | nil =>
    intro active p' a' h
    simp only [activate_orders, Except.ok.injEq, Prod.mk.injEq] at h
    obtain ⟨rfl, rfl⟩ := h
    exact ⟨by simp, fun o ho => Or.inl ho⟩
  | cons hd rest ih =>
    obtain ⟨origin, order⟩ := hd
    intro active p' a' h
    unfold activate_orders at h
    by_cases h1 : origin ≤ idx
    · rw [if_pos h1] at h
      by_cases h2 : idx - origin < md
      · rw [if_pos h2] at h
        simp only [Except.ok.injEq, Prod.mk.injEq] at h
        obtain ⟨rfl, rfl⟩ := h
        exact ⟨fun p hp => hp, fun o ho => Or.inl ho⟩
      · rw [if_neg h2] at h
        unfold assert_no_lookahead at h
        by_cases h3 : bts < order.timestamp
        · rw [if_pos h3] at h
          simp [Bind.bind, Except.bind] at h
        · rw [if_neg h3] at h
          simp only [Bind.bind, Except.bind] at h
          obtain ⟨hsub, hact⟩ := ih (active ++ [order]) p' a' h
          refine ⟨fun p hp => List.mem_cons_of_mem _ (hsub p hp), fun o ho => ?_⟩
          rcases hact o ho with hin | ⟨⟨i, hi⟩, hts⟩
          · rcases List.mem_append.mp hin with hin | hin
            · exact Or.inl hin
            · have : o = order := by simpa using hin
              subst this
              have h3q : ¬ bts.time < o.timestamp.time := h3
              exact Or.inr ⟨⟨origin, List.mem_cons_self _ _⟩, le_of_not_lt h3q⟩
          · exact Or.inr ⟨⟨i, List.mem_cons_of_mem _ hi⟩, hts⟩
    · rw [if_neg h1] at h
      simp only [Except.ok.injEq, Prod.mk.injEq] at h
      obtain ⟨rfl, rfl⟩ := h
      exact ⟨fun p hp => hp, fun o ho => Or.inl ho⟩

/-- Frame of `process_order`: it never touches the queues, the kill-switch
flag, the configuration, or the starting equity. -/
theorem process_order_frame (fx : Option (List (String × ℚ))) (bar : Bar)
    (rs : RunState) (order : OrderRequest) (out : RunState) (exec : Bool)
    (h : process_order fx bar rs order = .ok (out, exec)) :
    out.pending = rs.pending ∧ out.active_orders = rs.active_orders ∧
    out.sim.kill_switch_engaged = rs.sim.kill_switch_engaged ∧
    out.sim.provider_config = rs.sim.provider_config ∧
    out.sim.config = rs.sim.config ∧
    out.sim.starting_equity = rs.sim.starting_equity := by
  simp only [process_order] at h
  repeat' split at h
  all_goals first
    | exact (Except.noConfusion h)
    | (injection h with h1
       injection h1 with e1 e2
       subst e1
       exact ⟨rfl, rfl, rfl, rfl, rfl, rfl⟩)

/-- Any fill appended by `process_order` carries the processed order's id
and the bar's timestamp. -/
theorem process_order_fills (fx : Option (List (String × ℚ))) (bar : Bar)
    (rs : RunState) (order : OrderRequest) (out : RunState) (exec : Bool)
    (h : process_order fx bar rs order = .ok (out, exec)) :
    ∀ f ∈ out.fills, f ∈ rs.fills ∨
      (f.client_order_id = order.client_order_id ∧ f.timestamp = bar.timestamp) := by
  simp only [process_order] at h
  repeat' split at h
  all_goals first
    | exact (Except.noConfusion h)
    | (injection h with h1
       injection h1 with e1 e2
       subst e1
       first
        | exact fun f hf => Or.inl hf
        | (intro f hf
           rcases List.mem_append.mp hf with hf | hf
           · exact Or.inl hf
           · right
             have hm := match_order_fill_fields order bar _ _ _ _ _ (by assumption)
             rcases List.mem_singleton.mp hf with rfl
             exact ⟨hm.1, hm.2⟩))

/-- Any rejection appended by `process_order` records the processed order. -/
theorem process_order_rejections (fx : Option (List (String × ℚ))) (bar : Bar)
    (rs : RunState) (order : OrderRequest) (out : RunState) (exec : Bool)
    (h : process_order fx bar rs order = .ok (out, exec)) :
    ∀ r ∈ out.rejected_orders, r ∈ rs.rejected_orders ∨
      (r.order = order ∧ r.timestamp = bar.timestamp) := by
  simp only [process_order] at h
  repeat' split at h
  all_goals first
    | exact (Except.noConfusion h)
    | (injection h with h1
       injection h1 with e1 e2
       subst e1
       first
        | exact fun r hr => Or.inl hr
        | (intro r hr
           rcases List.mem_append.mp hr with hr | hr
           · exact Or.inl hr
           · rcases List.mem_singleton.mp hr with rfl
             exact Or.inr ⟨rfl, rfl⟩))

/-- Any bracket appended by `process_order` was created for the processed
order. -/
theorem process_order_brackets (fx : Option (List (String × ℚ))) (bar : Bar)
    (rs : RunState) (order : OrderRequest) (out : RunState) (exec : Bool)
    (h : process_order fx bar rs order = .ok (out, exec)) :
    ∀ br ∈ out.sim.active_brackets, br ∈ rs.sim.active_brackets ∨
      ∃ price i j, br = create_brackets price order i j := by
  simp only [process_order] at h
  repeat' split at h
  all_goals first
    | exact (Except.noConfusion h)
    | (injection h with h1
       injection h1 with e1 e2
       subst e1
       first
        | exact fun br hbr => Or.inl hbr
        | (intro br hbr
           rcases List.mem_append.mp hbr with hbr | hbr
           · exact Or.inl hbr
           · rcases List.mem_singleton.mp hbr with rfl
             exact Or.inr ⟨_, _, _, rfl⟩))

/-- Frame and provenance of the per-bar order loop. -/
theorem order_loop_props (fx : Option (List (String × ℚ))) (bar : Bar) :
    ∀ (os : List OrderRequest) (rs : RunState) (executed : List OrderRequest)
      (out : RunState) (ex_out : List OrderRequest),
      order_loop fx bar os rs executed = .ok (out, ex_out) →
      out.pending = rs.pending ∧ out.active_orders = rs.active_orders ∧
      out.sim.kill_switch_engaged = rs.sim.kill_switch_engaged ∧
      out.sim.provider_config = rs.sim.provider_config ∧
      out.sim.config = rs.sim.config ∧
      out.sim.starting_equity = rs.sim.starting_equity ∧
      (∀ f ∈ out.fills, f ∈ rs.fills ∨ ∃ o ∈ os,
        f.client_order_id = o.client_order_id ∧ f.timestamp = bar.timestamp) ∧
      (∀ r ∈ out.rejected_orders, r ∈ rs.rejected_orders ∨ ∃ o ∈ os, r.order = o) ∧
      (∀ br ∈ out.sim.active_brackets, br ∈ rs.sim.active_brackets ∨
        ∃ o ∈ os, ∃ price i j, br = create_brackets price o i j) := by
  intro os
  induction os with
  | nil =>
    intro rs executed out ex h
    simp only [order_loop, Except.ok.injEq, Prod.mk.injEq] at h
    obtain ⟨rfl, rfl⟩ := h
    exact ⟨rfl, rfl, rfl, rfl, rfl, rfl, fun f hf => Or.inl hf,
      fun r hr => Or.inl hr, fun br hbr => Or.inl hbr⟩
  | cons o os ih =>
    intro rs executed out ex h
    rw [show order_loop fx bar (o :: os) rs executed = do
        let r ← process_order fx bar rs o
        order_loop fx bar os r.1 (if r.2 then executed ++ [o] else executed)
      from rfl] at h
    rcases hpo : process_order fx bar rs o with e | r1
    · rw [hpo] at h; exact (Except.noConfusion h)
    · rw [hpo] at h
      simp only [Bind.bind, Except.bind] at h
      obtain ⟨hp, ha, hk, hpc, hcf, hse, hfills, hrej, hbr⟩ :=
        ih r1.1 (if r1.2 then executed ++ [o] else executed) out ex h
      obtain ⟨hp0, ha0, hk0, hpc0, hcf0, hse0⟩ :=
        process_order_frame fx bar rs o r1.1 r1.2 (by rw [hpo])
      refine ⟨hp.trans hp0, ha.trans ha0, hk.trans hk0, hpc.trans hpc0,
        hcf.trans hcf0, hse.trans hse0, ?_, ?_, ?_⟩
      · intro f hf
        rcases hfills f hf with hf1 | ⟨o2, ho2, hfo⟩
        · rcases process_order_fills fx bar rs o r1.1 r1.2 (by rw [hpo]) f hf1 with
            hf2 | hf2
          · exact Or.inl hf2
          · exact Or.inr ⟨o, List.mem_cons_self _ _, hf2⟩
        · exact Or.inr ⟨o2, List.mem_cons_of_mem _ ho2, hfo⟩
      · intro r hr
        rcases hrej r hr with hr1 | ⟨o2, ho2, hro⟩
        · rcases process_order_rejections fx bar rs o r1.1 r1.2 (by rw [hpo]) r hr1 with
            hr2 | hr2
          · exact Or.inl hr2
          · exact Or.inr ⟨o, List.mem_cons_self _ _, hr2.1⟩
        · exact Or.inr ⟨o2, List.mem_cons_of_mem _ ho2, hro⟩
      · intro br hbr2
        rcases hbr br hbr2 with hb1 | ⟨o2, ho2, hbo⟩
        · rcases process_order_brackets fx bar rs o r1.1 r1.2 (by rw [hpo]) br hb1 with
            hb2 | hb2
          · exact Or.inl hb2
          · exact Or.inr ⟨o, List.mem_cons_self _ _, hb2⟩
        · exact Or.inr ⟨o2, List.mem_cons_of_mem _ ho2, hbo⟩

/-- Frame and provenance of the per-bar bracket loop: rejections are never
touched, fills come from legs of the processed brackets, and surviving
brackets persist from the input. -/
theorem bracket_loop_props (fx : Option (List (String × ℚ))) (bar : Bar) :
    ∀ (brs : List BracketState) (rs out : RunState),
      bracket_loop fx bar brs rs = .ok out →
      out.pending = rs.pending ∧ out.active_orders = rs.active_orders ∧
      out.sim.kill_switch_engaged = rs.sim.kill_switch_engaged ∧
      out.sim.provider_config = rs.sim.provider_config ∧
      out.sim.config = rs.sim.config ∧
      out.sim.starting_equity = rs.sim.starting_equity ∧
      out.rejected_orders = rs.rejected_orders ∧
      (∀ f ∈ out.fills, f ∈ rs.fills ∨ ∃ br ∈ brs, ∃ leg,
        (br.stop_loss = some leg ∨ br.take_profit = some leg) ∧
        f.client_order_id = leg.client_order_id ∧ f.timestamp = bar.timestamp) ∧
      (∀ br2 ∈ out.sim.active_brackets, br2 ∈ rs.sim.active_brackets ∨ br2 ∈ brs) := by
  intro brs
  induction brs with
  | nil =>
    intro rs out h
    simp only [bracket_loop, Except.ok.injEq] at h
    subst h
    exact ⟨rfl, rfl, rfl, rfl, rfl, rfl, rfl, fun f hf => Or.inl hf,
      fun b hb => Or.inl hb⟩
  | cons br rest ih =>
    intro rs out h
    rw [show bracket_loop fx bar (br :: rest) rs = do
        let tr ← process_brackets br bar.high bar.low
        match tr.1 with
        | some trigger =>
          let pcfg := rs.sim.provider_config
          let slippage := pcfg.slippage_model.calculate trigger bar
          let commission := pcfg.fee_model.calculate trigger bar.open_ false
          match match_order trigger bar slippage commission pcfg.name (some bar.timestamp) with
          | .error e => .error e
          | .ok none => bracket_loop fx bar rest rs
          | .ok (some fill) =>
            let ra := rs.sim.account_state.apply_fill fill pcfg.settlement_days
              pcfg.borrow_rate_annual fx
            bracket_loop fx bar rest { rs with
              sim := { rs.sim with
                account_state := ra.2
                trades_today := rs.sim.trades_today + 1 }
              fills := rs.fills ++ [{ fill with realized_pnl := some ra.1 }]
              slippage_samples := rs.slippage_samples ++ [slippage] }
        | none =>
          bracket_loop fx bar rest { rs with
            sim := { rs.sim with active_brackets := rs.sim.active_brackets ++ [br] } }
      from rfl] at h
    rcases hpb : process_brackets br bar.high bar.low with e | tr
    · rw [hpb] at h; exact (Except.noConfusion h)
    · rw [hpb] at h
      simp only [Bind.bind, Except.bind] at h
      rcases htr : tr.1 with _ | trigger <;> rw [htr] at h
      · -- no trigger: bracket survives
        obtain ⟨hp, ha, hk, hpc, hcf, hse, hrj, hfills, hbr2⟩ := ih _ out h
        refine ⟨hp, ha, hk, hpc, hcf, hse, hrj, ?_, ?_⟩
        · intro f hf
          rcases hfills f hf with hf1 | ⟨b2, hb2, hleg⟩
          · exact Or.inl hf1
          · exact Or.inr ⟨b2, List.mem_cons_of_mem _ hb2, hleg⟩
        · intro b2 hb2
          rcases hbr2 b2 hb2 with hb3 | hb3
          · rcases List.mem_append.mp hb3 with hb4 | hb4
            · exact Or.inl hb4
            · rcases List.mem_singleton.mp hb4 with rfl
              exact Or.inr (List.mem_cons_self _ _)
          · exact Or.inr (List.mem_cons_of_mem _ hb3)
      · -- triggered leg
        have h2 : (match match_order trigger bar
                (rs.sim.provider_config.slippage_model.calculate trigger bar)
                (rs.sim.provider_config.fee_model.calculate trigger bar.open_ false)
                rs.sim.provider_config.name (some bar.timestamp) with
            | Except.error e => (Except.error e : Except PyErr RunState)
            | Except.ok none => bracket_loop fx bar rest rs
            | Except.ok (some fill) =>
              bracket_loop fx bar rest
                { rs with
                  sim := { rs.sim with
                           account_state := (rs.sim.account_state.apply_fill fill
                               rs.sim.provider_config.settlement_days
                               rs.sim.provider_config.borrow_rate_annual fx).2
                           trades_today := rs.sim.trades_today + 1 }
                  fills := rs.fills ++
                    [{ fill with
                       realized_pnl := some (rs.sim.account_state.apply_fill fill
                           rs.sim.provider_config.settlement_days
                           rs.sim.provider_config.borrow_rate_annual fx).1 }]
                  slippage_samples := rs.slippage_samples ++
                    [rs.sim.provider_config.slippage_model.calculate trigger bar] }) =
            Except.ok out := h
        clear h
        rcases hmo : match_order trigger bar
            (rs.sim.provider_config.slippage_model.calculate trigger bar)
            (rs.sim.provider_config.fee_model.calculate trigger bar.open_ false)
            rs.sim.provider_config.name (some bar.timestamp) with e | fo
        · rw [hmo] at h2; exact (Except.noConfusion h2)
        · rw [hmo] at h2
          rename' h2 => h
          rcases fo with _ | fill
          · obtain ⟨hp, ha, hk, hpc, hcf, hse, hrj, hfills, hbr2⟩ := ih _ out h
            refine ⟨hp, ha, hk, hpc, hcf, hse, hrj, ?_, ?_⟩
            · intro f hf
              rcases hfills f hf with hf1 | ⟨b2, hb2, hleg⟩
              · exact Or.inl hf1
              · exact Or.inr ⟨b2, List.mem_cons_of_mem _ hb2, hleg⟩
            · intro b2 hb2
              rcases hbr2 b2 hb2 with hb3 | hb3
              · exact Or.inl hb3
              · exact Or.inr (List.mem_cons_of_mem _ hb3)
          · obtain ⟨hp, ha, hk, hpc, hcf, hse, hrj, hfills, hbr2⟩ := ih _ out h
            have htrig := process_brackets_trigger_src br bar.high bar.low trigger tr.2
              (by rw [hpb, ← htr])
            have hmf := match_order_fill_fields trigger bar _ _ _ _ fill hmo
            refine ⟨hp, ha, hk, hpc, hcf, hse, hrj, ?_, ?_⟩
            · intro f hf
              rcases hfills f hf with hf1 | ⟨b2, hb2, hleg⟩
              · rcases List.mem_append.mp hf1 with hf2 | hf2
                · exact Or.inl hf2
                · rcases List.mem_singleton.mp hf2 with rfl
                  exact Or.inr ⟨br, List.mem_cons_self _ _, trigger, htrig,
                    hmf.1, hmf.2⟩
              · exact Or.inr ⟨b2, List.mem_cons_of_mem _ hb2, hleg⟩
            · intro b2 hb2
              rcases hbr2 b2 hb2 with hb3 | hb3
              · exact Or.inl hb3
              · exact Or.inr (List.mem_cons_of_mem _ hb3)

/-- The per-bar kill-switch re-evaluation never disengages an engaged
switch. -/
theorem kill_reeval_mono (cfg : SimulatorConfig) (eqv pk ds : ℚ) (k : Bool)
    (hk : k = true) : kill_reeval cfg eqv pk ds k = true := by
  unfold kill_reeval
  repeat' split
  all_goals first | rfl | exact hk

/-- The daily reset touches only the daily-start equity, the current day and
the intraday trade count. -/
theorem daily_reset_fields (fx : Option (List (String × ℚ))) (bar : Bar)
    (sim : Simulator) :
    (daily_reset fx bar sim).provider_config = sim.provider_config ∧
    (daily_reset fx bar sim).config = sim.config ∧
    (daily_reset fx bar sim).starting_equity = sim.starting_equity ∧
    (daily_reset fx bar sim).kill_switch_engaged = sim.kill_switch_engaged ∧
    (daily_reset fx bar sim).active_brackets = sim.active_brackets ∧
    (daily_reset fx bar sim).peak_equity = sim.peak_equity := by
  unfold daily_reset
  split <;> exact ⟨rfl, rfl, rfl, rfl, rfl, rfl⟩

/-- Frame and provenance of one bar step: configuration is preserved, an
engaged kill-switch stays engaged, pending orders only leave the queue
through activation, surviving active orders were reachable, and every new
fill, rejection and bracket traces back to a reachable order or an active
bracket. -/
theorem process_bar_props (fx swap : Option (List (String × ℚ))) (md idx : ℕ)
    (bar : Bar) (rs : RunState) (out : RunState) (halted : Bool)
    (h : process_bar fx swap md idx bar rs = .ok (out, halted)) :
    (rs.sim.kill_switch_engaged = true → out.sim.kill_switch_engaged = true) ∧
    out.sim.provider_config = rs.sim.provider_config ∧
    out.sim.config = rs.sim.config ∧
    out.sim.starting_equity = rs.sim.starting_equity ∧
    (∀ p ∈ out.pending, p ∈ rs.pending) ∧
    (∀ o ∈ out.active_orders, order_reaches rs bar o) ∧
    (∀ f ∈ out.fills, f ∈ rs.fills ∨ fill_source rs bar f) ∧
    (∀ r ∈ out.rejected_orders, r ∈ rs.rejected_orders ∨
      ∃ o, order_reaches rs bar o ∧ r.order = o) ∧
    (∀ br ∈ out.sim.active_brackets, br ∈ rs.sim.active_brackets ∨
      ∃ parent, order_reaches rs bar parent ∧
        ∃ price i j, br = create_brackets price parent i j) := by
  obtain ⟨Dpc, Dcf, Dse, Dk, Dbr, Dpk⟩ := daily_reset_fields fx bar rs.sim
  simp only [process_bar] at h
  repeat' split at h
  all_goals first
    | exact (Except.noConfusion h)
    | -- equity-floor halt leaf: queues, fills, rejections, brackets untouched
      (injection h with h1
       injection h1 with e1 e2
       subst e1
       refine ⟨fun hk => Dk.trans hk, Dpc, Dcf, Dse, fun p hp => hp, ?_, ?_, ?_, ?_⟩
       · exact fun o ho => Or.inl ho
       · exact fun f hf => Or.inl hf
       · exact fun r hr => Or.inl hr
       · intro br hbr
         have hbr2 : br ∈ (daily_reset fx bar rs.sim).active_brackets := hbr
         rw [Dbr] at hbr2
         exact Or.inl hbr2)
    | -- main leaf with the DAY-expiry filter
      (injection h with h1
       injection h1 with e1 e2
       subst e1
       rename_i x2 act hact x1 ol hol x0 rs4 hbl hempty
       obtain ⟨Bp, Ba, Bk, Bpc, Bcf, Bse, Brj, Bfills, Bbr⟩ :=
         bracket_loop_props fx bar _ _ _ hbl
       obtain ⟨Op, Oa, Ok2, Opc, Ocf, Ose, Ofills, Orej, Obr⟩ :=
         order_loop_props fx bar _ _ _ _ _ hol
       obtain ⟨Ap, Aa⟩ := activate_orders_ok md idx bar.timestamp _ _ _ _ hact
       refine ⟨?_, ?_, ?_, ?_, ?_, ?_, ?_, ?_, ?_⟩
       · intro hk
         exact (Bk.trans Ok2).trans (kill_reeval_mono _ _ _ _ _ (Dk.trans hk))
       · exact (Bpc.trans Opc).trans Dpc
       · exact (Bcf.trans Ocf).trans Dcf
       · exact (Bse.trans Ose).trans Dse
       · intro p hp
         have e : rs4.pending = act.1 := Bp.trans Op
         have hp2 : p ∈ rs4.pending := hp
         rw [e] at hp2
         exact Ap p hp2
       · intro o ho
         have ho2 : o ∈ rs4.active_orders := (List.mem_filter.mp ho).1
         rw [Ba] at ho2
         have ho3 : o ∈ ol.1.active_orders := (List.mem_filter.mp ho2).1
         have ho4 := Oa ▸ ho3
         exact Aa o ho4
       · intro f hf
         have hf4 : f ∈ rs4.fills := hf
         rcases Bfills f hf4 with hf3 | ⟨br, hbrm, leg, hlegeq, hcl, hts⟩
         · rcases Ofills f hf3 with hf1 | ⟨o, ho, hfo⟩
           · exact Or.inl hf1
           · exact Or.inr ⟨o, hfo.1, hfo.2, Or.inl (Aa o ho)⟩
         · have hbrm2 : br ∈ ol.1.sim.active_brackets := hbrm
           rcases Obr br hbrm2 with hb1 | ⟨o, ho, price, i, j, hbeq⟩
           · have hb1x : br ∈ (daily_reset fx bar rs.sim).active_brackets := hb1
             rw [Dbr] at hb1x
             exact Or.inr ⟨leg, hcl, hts, Or.inr (Or.inl ⟨br, hb1x, hlegeq⟩)⟩
           · subst hbeq
             exact Or.inr ⟨leg, hcl, hts, Or.inr (Or.inr ⟨o, Aa o ho,
               price, i, j, hlegeq⟩)⟩
       · intro r hr
         have hr4 : r ∈ rs4.rejected_orders := hr
         rw [Brj] at hr4
         rcases Orej r hr4 with hr1 | ⟨o, ho, hro⟩
         · exact Or.inl hr1
         · exact Or.inr ⟨o, Aa o ho, hro⟩
       · intro br hbr
         have hbr4 : br ∈ rs4.sim.active_brackets := hbr
         rcases Bbr br hbr4 with hb0 | hb1
         · simp at hb0
         · have hb2 : br ∈ ol.1.sim.active_brackets := hb1
           rcases Obr br hb2 with hb3 | ⟨o, ho, price, i, j, hbeq⟩
           · have hb3x : br ∈ (daily_reset fx bar rs.sim).active_brackets := hb3
             rw [Dbr] at hb3x
             exact Or.inl hb3x
           · exact Or.inr ⟨o, Aa o ho, price, i, j, hbeq⟩)
    | -- main leaf without the DAY-expiry filter (no active orders survived)
      (injection h with h1
       injection h1 with e1 e2
       subst e1
       rename_i x2 act hact x1 ol hol x0 rs4 hbl hempty
       obtain ⟨Bp, Ba, Bk, Bpc, Bcf, Bse, Brj, Bfills, Bbr⟩ :=
         bracket_loop_props fx bar _ _ _ hbl
       obtain ⟨Op, Oa, Ok2, Opc, Ocf, Ose, Ofills, Orej, Obr⟩ :=
         order_loop_props fx bar _ _ _ _ _ hol
       obtain ⟨Ap, Aa⟩ := activate_orders_ok md idx bar.timestamp _ _ _ _ hact
       refine ⟨?_, ?_, ?_, ?_, ?_, ?_, ?_, ?_, ?_⟩
       · intro hk
         exact (Bk.trans Ok2).trans (kill_reeval_mono _ _ _ _ _ (Dk.trans hk))
       · exact (Bpc.trans Opc).trans Dpc
       · exact (Bcf.trans Ocf).trans Dcf
       · exact (Bse.trans Ose).trans Dse
       · intro p hp
         have e : rs4.pending = act.1 := Bp.trans Op
         have hp2 : p ∈ rs4.pending := hp
         rw [e] at hp2
         exact Ap p hp2
       · intro o ho
         have ho2 : o ∈ rs4.active_orders := ho
         rw [Ba] at ho2
         have ho3 : o ∈ ol.1.active_orders := (List.mem_filter.mp ho2).1
         have ho4 := Oa ▸ ho3
         exact Aa o ho4
       · intro f hf
         have hf4 : f ∈ rs4.fills := hf
         rcases Bfills f hf4 with hf3 | ⟨br, hbrm, leg, hlegeq, hcl, hts⟩
         · rcases Ofills f hf3 with hf1 | ⟨o, ho, hfo⟩
           · exact Or.inl hf1
           · exact Or.inr ⟨o, hfo.1, hfo.2, Or.inl (Aa o ho)⟩
         · have hbrm2 : br ∈ ol.1.sim.active_brackets := hbrm
           rcases Obr br hbrm2 with hb1 | ⟨o, ho, price, i, j, hbeq⟩
           · have hb1x : br ∈ (daily_reset fx bar rs.sim).active_brackets := hb1
             rw [Dbr] at hb1x
             exact Or.inr ⟨leg, hcl, hts, Or.inr (Or.inl ⟨br, hb1x, hlegeq⟩)⟩
           · subst hbeq
             exact Or.inr ⟨leg, hcl, hts, Or.inr (Or.inr ⟨o, Aa o ho,
               price, i, j, hlegeq⟩)⟩
       · intro r hr
         have hr4 : r ∈ rs4.rejected_orders := hr
         rw [Brj] at hr4
         rcases Orej r hr4 with hr1 | ⟨o, ho, hro⟩
         · exact Or.inl hr1
         · exact Or.inr ⟨o, Aa o ho, hro⟩
       · intro br hbr
         have hbr4 : br ∈ rs4.sim.active_brackets := hbr
         rcases Bbr br hbr4 with hb0 | hb1
         · simp at hb0
         · have hb2 : br ∈ ol.1.sim.active_brackets := hb1
           rcases Obr br hb2 with hb3 | ⟨o, ho, price, i, j, hbeq⟩
           · have hb3x : br ∈ (daily_reset fx bar rs.sim).active_brackets := hb3
             rw [Dbr] at hb3x
             exact Or.inl hb3x
           · exact Or.inr ⟨o, Aa o ho, price, i, j, hbeq⟩)

/-- Membership through the stable insertion. -/
theorem mem_insert_by_origin (x y : ℕ × OrderRequest) :
    ∀ l : List (ℕ × OrderRequest), y ∈ insert_by_origin x l → y = x ∨ y ∈ l := by
  intro l
  induction l with
  | nil => intro h; simpa [insert_by_origin] using h
  | cons z rest ih =>
    intro h
    rw [insert_by_origin] at h
    split at h
    · rcases List.mem_cons.mp h with rfl | h2
      · exact Or.inr (List.mem_cons_self _ _)
      · rcases ih h2 with h3 | h3
        · exact Or.inl h3
        · exact Or.inr (List.mem_cons_of_mem _ h3)
    · rcases List.mem_cons.mp h with rfl | h2
      · exact Or.inl rfl
      · exact Or.inr h2

/-- The stable sort of the pending queue creates no entries. -/
theorem mem_sort_pending (y : ℕ × OrderRequest) :
    ∀ l, y ∈ sort_pending l → y ∈ l := by
  intro l
  induction l with
  | nil => intro h; rw [sort_pending] at h; exact h
  | cons x rest ih =>
    intro h
    rw [sort_pending] at h
    rcases mem_insert_by_origin x y _ h with rfl | h2
    · exact List.mem_cons_self _ _
    · exact List.mem_cons_of_mem _ (ih h2)

/-- An engaged kill-switch survives the whole bar loop. -/
theorem run_bars_kill (fx swap : Option (List (String × ℚ))) (md : ℕ) :
    ∀ (bars : List Bar) (idx : ℕ) (rs rsF : RunState),
      run_bars fx swap md idx bars rs = .ok rsF →
      rs.sim.kill_switch_engaged = true → rsF.sim.kill_switch_engaged = true := by
  intro bars
  induction bars with
  | nil =>
    intro idx rs rsF h hk
    simp only [run_bars, Except.ok.injEq] at h
    subst h
    exact hk
  | cons bar rest ih =>
    intro idx rs rsF h hk
    rw [show run_bars fx swap md idx (bar :: rest) rs = do
        let r ← process_bar fx swap md idx bar rs
        if r.2 then .ok r.1
        else run_bars fx swap md (idx + 1) rest r.1 from rfl] at h
    rcases hpb : process_bar fx swap md idx bar rs with e | r
    · rw [hpb] at h; exact (Except.noConfusion h)
    · rw [hpb] at h
      simp only [Bind.bind, Except.bind] at h
      have hprops := process_bar_props fx swap md idx bar rs r.1 r.2 (by rw [hpb])
      by_cases h2 : r.2 = true
      · rw [if_pos h2] at h
        injection h with h1
        subst h1
        exact hprops.1 hk
      · rw [if_neg h2] at h
        exact ih (idx + 1) r.1 rsF h (hprops.1 hk)

/-- The run-loop invariant weakens as the time bound grows. -/
theorem run_inv_mono (orders : List OrderRequest) (t t2 : ℚ) (rs : RunState)
    (hle : t ≤ t2) (h : run_inv orders t rs) : run_inv orders t2 rs := by
  obtain ⟨h1, h2, h3, h4, h5⟩ := h
  refine ⟨h1, fun o ho => ⟨(h2 o ho).1, le_trans (h2 o ho).2 hle⟩, ?_, h4, h5⟩
  intro br hbr
  obtain ⟨parent, hp, hts, hrest⟩ := h3 br hbr
  exact ⟨parent, hp, le_trans hts hle, hrest⟩

/-- One bar step preserves the run-loop invariant at the bar's time. -/
theorem process_bar_inv (fx swap : Option (List (String × ℚ))) (md idx : ℕ)
    (bar : Bar) (rs out : RunState) (halted : Bool) (orders : List OrderRequest)
    (h : process_bar fx swap md idx bar rs = .ok (out, halted))
    (hinv : run_inv orders bar.timestamp.time rs) :
    run_inv orders bar.timestamp.time out := by
  obtain ⟨_, _, _, _, hpend, hact, hfills, hrej, hbr⟩ :=
    process_bar_props fx swap md idx bar rs out halted h
  obtain ⟨i1, i2, i3, i4, i5⟩ := hinv
  refine ⟨fun p hp => i1 p (hpend p hp), ?_, ?_, ?_, ?_⟩
  · intro o ho
    rcases hact o ho with h1 | ⟨⟨i, hi⟩, hts⟩
    · exact i2 o h1
    · exact ⟨i1 _ hi, hts⟩
  · intro br hbr2
    rcases hbr br hbr2 with h1 | ⟨parent, hreach, price, i, j, hbeq⟩
    · exact i3 br h1
    · rcases hreach with h1 | ⟨⟨ix, hix⟩, hts⟩
      · obtain ⟨ho, hot⟩ := i2 parent h1
        exact ⟨parent, ho, hot, price, i, j, hbeq⟩
      · exact ⟨parent, i1 _ hix, hts, price, i, j, hbeq⟩
  · intro f hf
    rcases hfills f hf with h1 | ⟨o, hcid, hts, hcase⟩
    · exact i4 f h1
    · rcases hcase with hreach | ⟨br, hbrm, hleg⟩ | ⟨parent, hreach, hlegof⟩
      · rcases hreach with h1 | ⟨⟨i, hi⟩, hot⟩
        · obtain ⟨ho, hot2⟩ := i2 o h1
          refine ⟨o, ⟨hcid, Or.inl ho⟩, ?_⟩
          rw [hts]
          exact hot2
        · refine ⟨o, ⟨hcid, Or.inl (i1 _ hi)⟩, ?_⟩
          rw [hts]
          exact hot
      · obtain ⟨parent, hpo, hpt, price, i, j, hbeq⟩ := i3 br hbrm
        subst hbeq
        have hlt := create_brackets_leg_timestamp price parent i j o hleg
        refine ⟨o, ⟨hcid, Or.inr ⟨parent, hpo, price, i, j, hleg⟩⟩, ?_⟩
        rw [hts]
        have : (o.timestamp ≤ bar.timestamp) = (parent.timestamp ≤ bar.timestamp) := by
          rw [hlt]
        rw [this]
        exact hpt
      · obtain ⟨price, si, ti, hleg⟩ := hlegof
        have hlt := create_brackets_leg_timestamp price parent si ti o hleg
        rcases hreach with h1 | ⟨⟨i, hi⟩, hot⟩
        · obtain ⟨ho, hot2⟩ := i2 parent h1
          refine ⟨o, ⟨hcid, Or.inr ⟨parent, ho, price, si, ti, hleg⟩⟩, ?_⟩
          rw [hts]
          have : (o.timestamp ≤ bar.timestamp) = (parent.timestamp ≤ bar.timestamp) := by
            rw [hlt]
          rw [this]
          exact hot2
        · refine ⟨o, ⟨hcid, Or.inr ⟨parent, i1 _ hi, price, si, ti, hleg⟩⟩, ?_⟩
          rw [hts]
          have : (o.timestamp ≤ bar.timestamp) = (parent.timestamp ≤ bar.timestamp) := by
            rw [hlt]
          rw [this]
          exact hot
  · intro r hr
    rcases hrej r hr with h1 | ⟨o, hreach, hro⟩
    · exact i5 r h1
    · rw [hro]
      rcases hreach with h1 | ⟨⟨i, hi⟩, _⟩
      · exact (i2 o h1).1
      · exact i1 _ hi

/-- The bar loop preserves the run-loop invariant over in-order bars. -/
theorem run_bars_inv (fx swap : Option (List (String × ℚ))) (md : ℕ)
    (orders : List OrderRequest) :
    ∀ (bars : List Bar) (idx : ℕ) (t : ℚ) (rs rsF : RunState),
      run_bars fx swap md idx bars rs = .ok rsF →
      List.Pairwise (fun a b => a.timestamp.time ≤ b.timestamp.time) bars →
      (∀ b ∈ bars, t ≤ b.timestamp.time) →
      run_inv orders t rs →
      ∃ t2, run_inv orders t2 rsF := by
  intro bars
  induction bars with
  | nil =>
    intro idx t rs rsF h _ _ hinv
    simp only [run_bars, Except.ok.injEq] at h
    subst h
    exact ⟨t, hinv⟩
  | cons bar rest ih =>
    intro idx t rs rsF h hpw hbd hinv
    rw [show run_bars fx swap md idx (bar :: rest) rs = do
        let r ← process_bar fx swap md idx bar rs
        if r.2 then .ok r.1
        else run_bars fx swap md (idx + 1) rest r.1 from rfl] at h
    rcases hpb : process_bar fx swap md idx bar rs with e | r
    · rw [hpb] at h; exact (Except.noConfusion h)
    · rw [hpb] at h
      simp only [Bind.bind, Except.bind] at h
      have hinv1 : run_inv orders bar.timestamp.time rs :=
        run_inv_mono orders t _ rs (hbd bar (List.mem_cons_self _ _)) hinv
      have hinv2 : run_inv orders bar.timestamp.time r.1 :=
        process_bar_inv fx swap md idx bar rs r.1 r.2 orders (by rw [hpb]) hinv1
      by_cases h2 : r.2 = true
      · rw [if_pos h2] at h
        injection h with h1
        subst h1
        exact ⟨bar.timestamp.time, hinv2⟩
      · rw [if_neg h2] at h
        exact ih (idx + 1) bar.timestamp.time r.1 rsF h hpw.of_cons
          (fun b hb => List.rel_of_pairwise_cons hpw hb) hinv2

/-- A double Boolean negation under `= true`. -/
theorem not_bnot_eq_true {b : Bool} (h : ¬ (!b) = true) : b = true := by
  cases b
  · exact absurd rfl h
  · rfl

/-- Processing a buy while the kill-switch is engaged always appends a
rejection recording the order and never executes; the recorded reason is
the kill-switch violation if and only if the four risk caps (which run
first in the pipeline) all pass — otherwise it is the failing cap's
reason. -/
theorem process_order_kill_buy (fx : Option (List (String × ℚ))) (bar : Bar)
    (rs : RunState) (order : OrderRequest)
    (hk : rs.sim.kill_switch_engaged = true) (hside : order.side = .buy) :
    ∃ reason,
      process_order fx bar rs order =
        .ok ({ rs with rejected_orders := rs.rejected_orders ++
          [{ order := order, reason := reason, timestamp := bar.timestamp }] },
          false) ∧
      (reason = .violation .killSwitchEngaged ↔
        order_risk_caps_pass fx bar rs = true) := by
  simp only [process_order]
  split
  · rename_i hc1
    rw [Bool.not_eq_true'] at hc1
    refine ⟨.netPositionCap, rfl, fun h => absurd h (by decide), fun hpass => ?_⟩
    rw [order_risk_caps_pass] at hpass
    simp only [Bool.and_eq_true] at hpass
    simp [hc1] at hpass
  · split
    · rename_i hc1 hc2
      rw [Bool.not_eq_true'] at hc2
      refine ⟨.equityFloorBreached, rfl, fun h => absurd h (by decide),
        fun hpass => ?_⟩
      rw [order_risk_caps_pass] at hpass
      simp only [Bool.and_eq_true] at hpass
      simp [hc2] at hpass
    · split
      · rename_i hc1 hc2 hc3
        rw [Bool.not_eq_true'] at hc3
        refine ⟨.frequencyCapReached, rfl, fun h => absurd h (by decide),
          fun hpass => ?_⟩
        rw [order_risk_caps_pass] at hpass
        simp only [Bool.and_eq_true] at hpass
        simp [hc3] at hpass
      · split
        · rename_i hc1 hc2 hc3 hc4
          rw [Bool.not_eq_true'] at hc4
          refine ⟨.pyramidingCap, rfl, fun h => absurd h (by decide),
            fun hpass => ?_⟩
          rw [order_risk_caps_pass] at hpass
          simp only [Bool.and_eq_true] at hpass
          simp [hc4] at hpass
        · rename_i hc1 hc2 hc3 hc4
          refine ⟨.violation .killSwitchEngaged, ?_, fun h2 => ?_, fun h2 => rfl⟩
          · rw [hk]
            simp [check_kill_switch, hside]
          · rw [order_risk_caps_pass]
            simp only [Bool.and_eq_true]
            exact ⟨⟨⟨not_bnot_eq_true hc1, not_bnot_eq_true hc2⟩,
              not_bnot_eq_true hc3⟩, not_bnot_eq_true hc4⟩

/-- The bracket loop never consults the kill-switch: forcing the flag on the
input state only forces it on the output. -/
theorem bracket_loop_with_kill (fx : Option (List (String × ℚ))) (bar : Bar) :
    ∀ (brs : List BracketState) (rs : RunState) (b : Bool),
      bracket_loop fx bar brs (with_kill rs b) =
        (bracket_loop fx bar brs rs).map (fun out => with_kill out b) := by
  intro brs
  induction brs with
  | nil => intro rs b; rfl
  | cons br rest ih =>
    intro rs b
    simp only [bracket_loop, with_kill]
    rcases hpb : process_brackets br bar.high bar.low with e | ⟨tr1, tr2⟩
    · simp [hpb, Bind.bind, Except.bind, Except.map]
    · rcases tr1 with _ | trigger
      · simp only [hpb, Bind.bind, Except.bind]
        exact ih { rs with sim :=
          { rs.sim with active_brackets := rs.sim.active_brackets ++ [br] } } b
      · simp only [hpb, Bind.bind, Except.bind]
        rcases hmo : match_order trigger bar
            (rs.sim.provider_config.slippage_model.calculate trigger bar)
            (rs.sim.provider_config.fee_model.calculate trigger bar.open_ false)
            rs.sim.provider_config.name (some bar.timestamp) with e | fl
        · simp [hmo, Except.map]
        · rcases fl with _ | fill
          · simp only [hmo]
            exact ih rs b
          · simp only [hmo]
            exact ih { rs with
              sim := { rs.sim with
                account_state := (rs.sim.account_state.apply_fill fill
                  rs.sim.provider_config.settlement_days
                  rs.sim.provider_config.borrow_rate_annual fx).2
                trades_today := rs.sim.trades_today + 1 }
              fills := rs.fills ++
                [{ fill with
                    realized_pnl := some (rs.sim.account_state.apply_fill fill
                      rs.sim.provider_config.settlement_days
                      rs.sim.provider_config.borrow_rate_annual fx).1 }]
              slippage_samples := rs.slippage_samples ++
                [rs.sim.provider_config.slippage_model.calculate trigger bar] } b

/-- A completed bar loop over in-order bars, started from a fresh queue of
input orders, yields only fills originating from input orders no later than
themselves, and rejections recording input orders. -/
theorem run_bars_result (fx swap : Option (List (String × ℚ))) (md : ℕ)
    (orders : List OrderRequest) (bars : List Bar) (rs rsF : RunState)
    (h : run_bars fx swap md 0 bars rs = .ok rsF)
    (hpw : List.Pairwise (fun a b => a.timestamp.time ≤ b.timestamp.time) bars)
    (hpend : ∀ p ∈ rs.pending, p.2 ∈ orders)
    (hact : rs.active_orders = []) (hbr : rs.sim.active_brackets = [])
    (hfills : rs.fills = []) (hrej : rs.rejected_orders = []) :
    (∀ f ∈ rsF.fills, ∃ o, originates_from orders f o ∧
      o.timestamp ≤ f.timestamp) ∧
    (∀ r ∈ rsF.rejected_orders, r.order ∈ orders) := by
  cases bars with
  | nil =>
    simp only [run_bars, Except.ok.injEq] at h
    subst h
    exact ⟨fun f hf => absurd (hfills ▸ hf) (List.not_mem_nil f),
      fun r hr => absurd (hrej ▸ hr) (List.not_mem_nil r)⟩
  | cons b0 rest =>
    have hinv0 : run_inv orders b0.timestamp.time rs := by
      refine ⟨hpend, ?_, ?_, ?_, ?_⟩
      · intro o ho
        rw [hact] at ho
        exact absurd ho (List.not_mem_nil o)
      · intro br hbr2
        rw [hbr] at hbr2
        exact absurd hbr2 (List.not_mem_nil br)
      · intro f hf
        rw [hfills] at hf
        exact absurd hf (List.not_mem_nil f)
      · intro r hr
        rw [hrej] at hr
        exact absurd hr (List.not_mem_nil r)
    have hbound : ∀ b ∈ b0 :: rest, b0.timestamp.time ≤ b.timestamp.time := by
      intro b hb
      rcases List.mem_cons.mp hb with rfl | hb2
      · exact le_refl _
      · exact List.rel_of_pairwise_cons hpw hb2
    obtain ⟨t2, hinv⟩ := run_bars_inv fx swap md orders (b0 :: rest) 0
      b0.timestamp.time rs rsF h hpw hbound hinv0
    exact ⟨hinv.2.2.2.1, hinv.2.2.2.2⟩

/-- Every fill of a successful `Simulator.run` (no pre-existing brackets,
in-order bars) originates from an input order timestamped no later than
itself, and every rejection records an input order. -/
theorem run_result_inv (sim : Simulator) (orders : List OrderRequest)
    (bars : List Bar) (md : Option ℕ) (fx swap : Option (List (String × ℚ)))
    (nid : ℕ) (simF : Simulator) (result : SimulationResult)
    (hbrk : sim.active_brackets = [])
    (hpw : List.Pairwise (fun a b => a.timestamp.time ≤ b.timestamp.time) bars)
    (hrun : Simulator.run sim orders bars md fx swap nid = .ok (simF, result)) :
    (∀ f ∈ result.fills, ∃ o, originates_from orders f o ∧
      o.timestamp ≤ f.timestamp) ∧
    (∀ r ∈ result.rejected_orders, r.order ∈ orders) := by
  simp only [Simulator.run] at hrun
  rcases hrb : run_bars fx swap (md.getD sim.config.min_order_delay_bars) 0 bars
      { sim := sim
        pending := sort_pending (orders.map (fun o =>
          ((bars.findIdx? (fun b => decide (o.timestamp ≤ b.timestamp))).getD 0, o)))
        next_order_id := nid } with e | rsF2
  · rw [hrb] at hrun
    exact (Except.noConfusion hrun)
  · rw [hrb] at hrun
    injection hrun with h1
    injection h1 with e1 e2
    subst e2
    have hpend0 : ∀ p ∈ sort_pending (orders.map (fun o =>
        ((bars.findIdx? (fun b => decide (o.timestamp ≤ b.timestamp))).getD 0, o))),
        p.2 ∈ orders := by
      intro p hp
      obtain ⟨o, ho, heq⟩ := List.mem_map.mp (mem_sort_pending p _ hp)
      rw [← heq]
      exact ho
    obtain ⟨hf, hr⟩ := run_bars_result fx swap
      (md.getD sim.config.min_order_delay_bars) orders bars _ rsF2 hrb hpw
      hpend0 rfl hbrk rfl rfl
    exact ⟨fun f hfm => hf f hfm, fun r hrm => hr r hrm⟩

/-- **C3** (amended): in every run the kill-switch is sticky — once engaged
it stays engaged through the remaining bars — and while it is engaged every
buy order is rejected and recorded in `rejected_orders`, with the
kill-switch reason if and only if the four risk caps (which run first in
the pipeline) all pass; the kill-switch check itself never blocks a
sell. -/
theorem kill_switch_rules (fx swap : Option (List (String × ℚ)))
    (md idx : ℕ) (bars : List Bar) (rs rsF : RunState) (bar : Bar)
    (order : OrderRequest)
    (hrun : run_bars fx swap md idx bars rs = .ok rsF)
    (hk : rs.sim.kill_switch_engaged = true) :
    rsF.sim.kill_switch_engaged = true ∧
    (order.side = .buy →
      ∃ reason,
        process_order fx bar rs order =
          .ok ({ rs with rejected_orders := rs.rejected_orders ++
            [{ order := order, reason := reason, timestamp := bar.timestamp }] },
            false) ∧
        (reason = .violation .killSwitchEngaged ↔
          order_risk_caps_pass fx bar rs = true)) ∧
    (∀ (k : Bool) (o : OrderRequest), o.side = .sell →
      check_kill_switch k o = .ok ()) := by
  refine ⟨run_bars_kill fx swap md bars idx rs rsF hrun hk,
    fun hside => process_order_kill_buy fx bar rs order hk hside,
    fun k o hs => ?_⟩
  simp [check_kill_switch, hs]

/-- Witness for C3 at an engaged cap-free state: the empty bar list
discharges the run hypothesis, and the four risk caps pass concretely. -/
theorem kill_switch_rules_witness :
    run_bars none none 0 0 [] c3_clean = .ok c3_clean ∧
    c3_clean.sim.kill_switch_engaged = true ∧
    c3_clean.sim.config.risk_caps.validated = true ∧
    order_risk_caps_pass none s1_bar c3_clean = true ∧
    (c3_clean.sim.kill_switch_engaged = true ∧
     (c3_order.side = .buy →
       ∃ reason,
         process_order none s1_bar c3_clean c3_order =
           .ok ({ c3_clean with rejected_orders := c3_clean.rejected_orders ++
             [{ order := c3_order, reason := reason,
                timestamp := s1_bar.timestamp }] }, false) ∧
         (reason = .violation .killSwitchEngaged ↔
           order_risk_caps_pass none s1_bar c3_clean = true)) ∧
     (∀ (k : Bool) (o : OrderRequest), o.side = .sell →
       check_kill_switch k o = .ok ())) :=
  ⟨rfl, rfl, rfl, rfl,
    kill_switch_rules none none 0 0 [] c3_clean c3_clean s1_bar c3_order rfl rfl⟩

/-- Counterexample to C3 as stated: under a configuration the source's
field validators accept (frequency cap 1, a positive integer), with one
trade already executed today and the kill-switch engaged, the next buy is
rejected with the cap's reason rather than a kill-switch reason — the caps
run before the kill-switch gate in the pipeline. -/
theorem kill_switch_reason_cex :
    c3_rs.sim.config.risk_caps.validated = true ∧
    c3_rs.sim.kill_switch_engaged = true ∧ c3_order.side = .buy ∧
    process_order none s1_bar c3_rs c3_order =
      .ok ({ c3_rs with rejected_orders :=
        [{ order := c3_order, reason := .frequencyCapReached,
           timestamp := s1_bar.timestamp }] }, false) ∧
    RejectReason.frequencyCapReached ≠ .violation .killSwitchEngaged :=
  ⟨rfl, rfl, rfl, rfl, by decide⟩

/-- **C6**: over bars with non-decreasing timestamps no fill of a successful
run is stamped earlier than its originating input order; the look-ahead
validator errors whenever the order is timestamped after the bar, an
activation that meets one aborts with the look-ahead error, and a failing
bar aborts the bar loop with its error. -/
theorem no_lookahead_rule (sim : Simulator) (orders : List OrderRequest)
    (bars : List Bar) (md : Option ℕ) (fx swap : Option (List (String × ℚ)))
    (nid : ℕ) (simF : Simulator) (result : SimulationResult)
    (hbrk : sim.active_brackets = [])
    (hpw : List.Pairwise (fun a b => a.timestamp.time ≤ b.timestamp.time) bars)
    (hrun : Simulator.run sim orders bars md fx swap nid = .ok (simF, result)) :
    (∀ f ∈ result.fills, ∃ o, originates_from orders f o ∧
      o.timestamp ≤ f.timestamp) ∧
    (∀ ots bts : Timestamp, bts < ots →
      assert_no_lookahead ots bts = .error .lookAheadBias) ∧
    (∀ (md2 idx2 : ℕ) (bts : Timestamp) (i : ℕ) (o : OrderRequest)
        (pend : List (ℕ × OrderRequest)) (act : List OrderRequest),
      i ≤ idx2 → ¬ idx2 - i < md2 → bts < o.timestamp →
      activate_orders md2 idx2 bts ((i, o) :: pend) act =
        .error .lookAheadBias) ∧
    (∀ (fx2 swap2 : Option (List (String × ℚ))) (md2 idx2 : ℕ) (bar2 : Bar)
        (rs2 : RunState) (rest : List Bar) (e : PyErr),
      process_bar fx2 swap2 md2 idx2 bar2 rs2 = .error e →
      run_bars fx2 swap2 md2 idx2 (bar2 :: rest) rs2 = .error e) := by
  refine ⟨(run_result_inv sim orders bars md fx swap nid simF result
      hbrk hpw hrun).1, ?_, ?_, ?_⟩
  · intro ots bts hlt
    unfold assert_no_lookahead
    rw [if_pos hlt]
  · intro md2 idx2 bts i o pend act h1 h2 h3
    unfold activate_orders
    rw [if_pos h1, if_neg h2]
    unfold assert_no_lookahead
    rw [if_pos h3]
    simp [Bind.bind, Except.bind]
  · intro fx2 swap2 md2 idx2 bar2 rs2 rest e hpb
    rw [show run_bars fx2 swap2 md2 idx2 (bar2 :: rest) rs2 = do
        let r ← process_bar fx2 swap2 md2 idx2 bar2 rs2
        if r.2 then .ok r.1
        else run_bars fx2 swap2 md2 (idx2 + 1) rest r.1 from rfl]
    rw [hpb]
    simp [Bind.bind, Except.bind]

/-- Witness for C6: the empty-bar run over one input order discharges the
run hypotheses concretely. -/
theorem no_lookahead_rule_witness :
    c6_sim.active_brackets = [] ∧
    List.Pairwise (fun a b : Bar => a.timestamp.time ≤ b.timestamp.time) [] ∧
    Simulator.run c6_sim [c6_order] [] none none none 0 =
      .ok (c6_sim, c6_result) ∧
    ((∀ f ∈ c6_result.fills,
        ∃ o, originates_from [c6_order] f o ∧ o.timestamp ≤ f.timestamp) ∧
     (∀ ots bts : Timestamp, bts < ots →
       assert_no_lookahead ots bts = .error .lookAheadBias) ∧
     (∀ (md2 idx2 : ℕ) (bts : Timestamp) (i : ℕ) (o : OrderRequest)
         (pend : List (ℕ × OrderRequest)) (act : List OrderRequest),
       i ≤ idx2 → ¬ idx2 - i < md2 → bts < o.timestamp →
       activate_orders md2 idx2 bts ((i, o) :: pend) act =
         .error .lookAheadBias) ∧
     (∀ (fx2 swap2 : Option (List (String × ℚ))) (md2 idx2 : ℕ) (bar2 : Bar)
         (rs2 : RunState) (rest : List Bar) (e : PyErr),
       process_bar fx2 swap2 md2 idx2 bar2 rs2 = .error e →
       run_bars fx2 swap2 md2 idx2 (bar2 :: rest) rs2 = .error e)) :=
  ⟨rfl, List.Pairwise.nil, rfl,
    no_lookahead_rule c6_sim [c6_order] [] none none none 0 c6_sim
      c6_result rfl List.Pairwise.nil rfl⟩

/-- **C10**: a triggering bracket leg is matched and applied with no
constraint pipeline: the bracket loop never touches `rejected_orders` and
is oblivious to the kill-switch flag, so legs execute identically while it
is engaged; and at run level every rejection records an input order, so the
generated legs are never the subject of one. -/
theorem bracket_bypass (fx : Option (List (String × ℚ))) (bar : Bar)
    (brs : List BracketState) (rs : RunState) (b : Bool) :
    (∀ out, bracket_loop fx bar brs rs = .ok out →
      out.rejected_orders = rs.rejected_orders) ∧
    bracket_loop fx bar brs (with_kill rs b) =
      (bracket_loop fx bar brs rs).map (fun out => with_kill out b) ∧
    (∀ (sim : Simulator) (orders : List OrderRequest) (bars : List Bar)
        (md : Option ℕ) (swap : Option (List (String × ℚ))) (nid : ℕ)
        (simF : Simulator) (result : SimulationResult),
      sim.active_brackets = [] →
      List.Pairwise (fun a b2 => a.timestamp.time ≤ b2.timestamp.time) bars →
      Simulator.run sim orders bars md fx swap nid = .ok (simF, result) →
      ∀ r ∈ result.rejected_orders, r.order ∈ orders) :=
  ⟨fun out h => (bracket_loop_props fx bar brs rs out h).2.2.2.2.2.2.1,
   bracket_loop_with_kill fx bar brs rs b,
   fun sim orders bars md swap nid simF result hbrk hpw hrun =>
     (run_result_inv sim orders bars md fx swap nid simF result
       hbrk hpw hrun).2⟩

/-- Witness for C10: a non-triggering bracket survives the loop with the
rejections untouched, and forcing the kill-switch flag commutes with the
loop on the concrete inputs. -/
theorem bracket_bypass_witness :
    bracket_loop none c10_bar [s3_bracket] c10_rs =
      .ok { c10_rs with sim :=
        { c10_rs.sim with active_brackets := [s3_bracket] } } ∧
    ({ c10_rs with sim :=
        { c10_rs.sim with active_brackets := [s3_bracket] } } :
      RunState).rejected_orders = c10_rs.rejected_orders ∧
    bracket_loop none c10_bar [s3_bracket] (with_kill c10_rs true) =
      (bracket_loop none c10_bar [s3_bracket] c10_rs).map
        (fun out => with_kill out true) :=
  ⟨rfl,
   (bracket_bypass none c10_bar [s3_bracket] c10_rs true).1 _ rfl,
   (bracket_bypass none c10_bar [s3_bracket] c10_rs true).2.1⟩

end LiqSim
